import Mathlib

/-!
Verification of the memcached sub-document front-end (daverigby/memcached).

This file gives a shallow embedding, in Lean 4, of the sub-document
request validators (`daemon/subdocument_validators.cc`), the document
materializer `get_document_for_searching`, the single-path executor loop
`subdoc_executor` with its fetch/operate/update/respond phases
(`daemon/subdocument.cc`), and the command-context destructor
(`subdocument_context.h`), together with theorems settling the frozen
claims about them.

Machine integers are modelled as `Nat` with explicit `% 2^w` where the
C code performs wrapping unsigned arithmetic.  Wire data is modelled as
lists of bytes (`Nat`, each `< 256`); multi-byte wire fields are
big-endian, and a raw (un-`ntohl`ed) struct-field read of a 32-bit wire
field is modelled as a little-endian read, matching the little-endian
hosts the daemon is built for.  The storage engine and the Subdoc
operation library are external collaborators (spec sections 4.3 and the
engine interface); they are modelled as explicit environments whose
responses the executor consumes.
-/

namespace Memcached

/-! ## Byte-level wire primitives -/

/-- Read one byte of a packet; out-of-range reads yield 0 (the C code
would read adjacent memory; see the walk lemmas for why the value read
never affects accept/reject). -/
def readByte (pkt : List Nat) (i : Nat) : Nat := pkt.getD i 0

/-- Big-endian decode of a 16-bit field at offset `i` (what `ntohs` of a
struct field at that offset yields). -/
def readU16BE (pkt : List Nat) (i : Nat) : Nat :=
  readByte pkt i * 256 + readByte pkt (i + 1)

/-- Big-endian decode of a 32-bit field at offset `i` (what `ntohl`
yields). -/
def readU32BE (pkt : List Nat) (i : Nat) : Nat :=
  ((readByte pkt i * 256 + readByte pkt (i + 1)) * 256 + readByte pkt (i + 2)) * 256
    + readByte pkt (i + 3)

/-- Raw in-memory read of a 32-bit wire field on a little-endian host,
i.e. a struct-field access with no `ntohl` applied. -/
def readU32LE (pkt : List Nat) (i : Nat) : Nat :=
  ((readByte pkt (i + 3) * 256 + readByte pkt (i + 2)) * 256 + readByte pkt (i + 1)) * 256
    + readByte pkt i

/-- Big-endian encoding of a 16-bit value. -/
def u16BE (n : Nat) : List Nat := [n / 256 % 256, n % 256]

/-- Big-endian encoding of a 32-bit value. -/
def u32BE (n : Nat) : List Nat :=
  [n / 2 ^ 24 % 256, n / 2 ^ 16 % 256, n / 256 % 256, n % 256]

/-- Big-endian encoding of a 64-bit value (what `htonll` produces). -/
def u64BE (n : Nat) : List Nat :=
  [n / 2 ^ 56 % 256, n / 2 ^ 48 % 256, n / 2 ^ 40 % 256, n / 2 ^ 32 % 256,
   n / 2 ^ 24 % 256, n / 2 ^ 16 % 256, n / 256 % 256, n % 256]

/-- Unsigned 32-bit subtraction with wraparound, as C computes
`a - b` on `uint32_t` operands (for `b < 2^32`). -/
def u32sub (a b : Nat) : Nat := (a + 2 ^ 32 - b) % 2 ^ 32

/-! ## Protocol constants (from `memcached/protocol_binary.h`; the
header itself is outside `src/`, the numeric values are the wire
constants of the binary protocol used by the sources). -/

def PROTOCOL_BINARY_REQ : Nat := 0x80
def PROTOCOL_BINARY_RES : Nat := 0x81
def PROTOCOL_BINARY_RAW_BYTES : Nat := 0x00
def PROTOCOL_BINARY_DATATYPE_JSON : Nat := 0x01
def PROTOCOL_BINARY_DATATYPE_COMPRESSED : Nat := 0x02
def PROTOCOL_BINARY_DATATYPE_COMPRESSED_JSON : Nat := 0x03

def CMD_SUBDOC_GET : Nat := 0xc5
def CMD_SUBDOC_EXISTS : Nat := 0xc6
def CMD_SUBDOC_DICT_ADD : Nat := 0xc7
def CMD_SUBDOC_DICT_UPSERT : Nat := 0xc8
def CMD_SUBDOC_DELETE : Nat := 0xc9
def CMD_SUBDOC_REPLACE : Nat := 0xca
def CMD_SUBDOC_ARRAY_PUSH_LAST : Nat := 0xcb
def CMD_SUBDOC_ARRAY_PUSH_FIRST : Nat := 0xcc
def CMD_SUBDOC_ARRAY_INSERT : Nat := 0xcd
def CMD_SUBDOC_ARRAY_ADD_UNIQUE : Nat := 0xce
def CMD_SUBDOC_COUNTER : Nat := 0xcf
def CMD_SUBDOC_MULTI_LOOKUP : Nat := 0xd0
def CMD_SUBDOC_MULTI_MUTATION : Nat := 0xd1

/-- Maximum sub-document path length (`SUBDOC_PATH_MAX_LENGTH`,
`subdocument_validators.h`). -/
def SUBDOC_PATH_MAX_LENGTH : Nat := 1024

/-- The `SUBDOC_FLAG_MKDIR_P` bit. -/
def SUBDOC_FLAG_MKDIR_P : Nat := 0x01

/-! ## Per-opcode command traits

The C++ sources dispatch on a compile-time traits record
`cmd_traits<Cmd2Type<CMD>>` (`subdocument_traits.h`, a header not
present under `src/`).  The templated validator and executor are
embedded as functions taking the traits record as an argument, exactly
mirroring the template parameter; concrete records for some opcodes are
modelled from the spec below, and are used only to instantiate
witnesses and counterexamples. -/

structure CmdTraits where
  is_mutator : Bool
  request_has_value : Bool
  response_has_value : Bool
  allow_empty_path : Bool
  /-- Bitmask (one byte) of the sub-document flags the opcode accepts. -/
  valid_flags : Nat
  deriving Repr, DecidableEq

/-- Modelled from the spec: traits of `SUBDOC_GET` (lookup, no request
value, returns the match value, no flags accepted, path required); the
trait table header is not under `src/`.  Flag behaviour matches the
validator tests (`InvalidLocationFlags`). -/
def traitsGet : CmdTraits :=
  { is_mutator := false, request_has_value := false, response_has_value := true,
    allow_empty_path := false, valid_flags := 0 }

/-- Modelled from the spec: traits of `SUBDOC_EXISTS` (lookup, no
request value, no response value, no flags accepted, path required). -/
def traitsExists : CmdTraits :=
  { is_mutator := false, request_has_value := false, response_has_value := false,
    allow_empty_path := false, valid_flags := 0 }

/-- Modelled from the spec: traits of `SUBDOC_DICT_ADD` (mutator with a
request value, no response value, `MKDIR_P` accepted, path required). -/
def traitsDictAdd : CmdTraits :=
  { is_mutator := true, request_has_value := true, response_has_value := false,
    allow_empty_path := false, valid_flags := SUBDOC_FLAG_MKDIR_P }

/-- Modelled from the spec: traits of `SUBDOC_COUNTER` (mutator with a
request value, returns the new count, `MKDIR_P` accepted). -/
def traitsCounter : CmdTraits :=
  { is_mutator := true, request_has_value := true, response_has_value := true,
    allow_empty_path := false, valid_flags := SUBDOC_FLAG_MKDIR_P }

/-! ## Single-path request validator

Embedding of `subdoc_validator<CMD>` (`subdocument_validators.cc`
lines 26-72).  The header fields are modelled post-decode: `keylen` and
`pathlen` are the `ntohs` values, `bodylen` the `ntohl` value, with the
bounds of the corresponding C types carried as a well-formedness
predicate.  `valuelen` is computed exactly as the C does: a chain of
`uint32_t` subtractions, which wrap. -/

structure SingleHeader where
  magic : Nat
  keylen : Nat
  extlen : Nat
  datatype : Nat
  bodylen : Nat
  /-- Decoded `req->message.extras.pathlen`. -/
  pathlen : Nat
  /-- The `req->message.extras.subdoc_flags` byte. -/
  subdoc_flags : Nat
  deriving Repr, DecidableEq

/-- Field bounds given by the C types of the packet header. -/
def SingleHeader.WF (h : SingleHeader) : Prop :=
  h.magic < 2 ^ 8 ∧ h.keylen < 2 ^ 16 ∧ h.extlen < 2 ^ 8 ∧ h.datatype < 2 ^ 8 ∧
    h.bodylen < 2 ^ 32 ∧ h.pathlen < 2 ^ 16 ∧ h.subdoc_flags < 2 ^ 8

instance (h : SingleHeader) : Decidable h.WF := by
  unfold SingleHeader.WF; infer_instance

/-- The validator's local `const uint32_t valuelen = bodylen - keylen -
extlen - pathlen;` — a chain of wrapping `uint32_t` subtractions. -/
def valuelenOf (h : SingleHeader) : Nat :=
  u32sub (u32sub (u32sub h.bodylen h.keylen) h.extlen) h.pathlen

/-- Embedding of `subdoc_validator<CMD>`: returns 0 to accept the
packet, -1 to reject it.  The traits argument plays the role of the
`CMD` template parameter. -/
def subdoc_validator (t : CmdTraits) (h : SingleHeader) : Int :=
  if h.magic ≠ PROTOCOL_BINARY_REQ ∨ h.keylen = 0 ∨ h.extlen ≠ 3 ∨
      h.pathlen > SUBDOC_PATH_MAX_LENGTH ∨ h.datatype ≠ PROTOCOL_BINARY_RAW_BYTES then
    -1
  else if t.request_has_value ∧ valuelenOf h = 0 then
    -1
  else if ¬t.request_has_value ∧ valuelenOf h ≠ 0 then
    -1
  else if h.subdoc_flags &&& (255 ^^^ t.valid_flags) ≠ 0 then
    -1
  else if ¬t.allow_empty_path ∧ h.pathlen = 0 then
    -1
  else
    0

theorem valuelenOf_eq_zero_iff (h : SingleHeader) (hwf : h.WF)
    (hext : h.extlen = 3) (hpath : h.pathlen ≤ SUBDOC_PATH_MAX_LENGTH) :
    valuelenOf h = 0 ↔ h.bodylen = h.keylen + h.extlen + h.pathlen := by
  obtain ⟨-, hk, -, -, hb, hp, -⟩ := hwf
  simp only [valuelenOf, u32sub, SUBDOC_PATH_MAX_LENGTH] at *
  omega

/-- C3 counterexample: a `SUBDOC_DICT_ADD` packet whose declared body
length (4) is smaller than key + extras + path alone (1 + 3 + 1 = 5),
so the body cannot account for key, extras, path and value — yet the
validator accepts it: the `uint32_t` computation of `valuelen` wraps to
a huge non-zero number, which passes the `request_has_value` check. -/
theorem subdoc_validator_truncated_accepted :
    subdoc_validator traitsDictAdd
        { magic := 0x80, keylen := 1, extlen := 3, datatype := 0,
          bodylen := 4, pathlen := 1, subdoc_flags := 0 } = 0 ∧
      (4 : Nat) < 1 + 3 + 1 := by
  constructor
  · decide
  · decide

/-- C3 (amended): for every traits record and every header within the
bounds of the C field types, `subdoc_validator` accepts exactly when
the magic is REQ, the key is non-empty, the extras length is 3
(pathlen u16 + flags u8), the datatype is RAW, the path length is at
most 1024 and non-zero unless the traits allow an empty path, the
flags lie within `valid_flags`, and the declared body length differs
from `keylen + extlen + pathlen` when the opcode takes a value
(including, via `uint32_t` wraparound, body lengths too small to hold
the path) and equals it when the opcode takes none. -/
theorem subdoc_validator_accept_iff (t : CmdTraits) (h : SingleHeader) (hwf : h.WF) :
    subdoc_validator t h = 0 ↔
      (h.magic = PROTOCOL_BINARY_REQ ∧ 0 < h.keylen ∧ h.extlen = 3 ∧
       h.datatype = PROTOCOL_BINARY_RAW_BYTES ∧ h.pathlen ≤ SUBDOC_PATH_MAX_LENGTH ∧
       (0 < h.pathlen ∨ t.allow_empty_path = true) ∧
       h.subdoc_flags &&& (255 ^^^ t.valid_flags) = 0 ∧
       (t.request_has_value = true → h.bodylen ≠ h.keylen + h.extlen + h.pathlen) ∧
       (t.request_has_value = false → h.bodylen = h.keylen + h.extlen + h.pathlen)) := by
  unfold subdoc_validator
  split_ifs with h1 h2 h3 h4 h5
  · refine iff_of_false (by decide) ?_
    rintro ⟨hm, hk, he, hd, hp, -, -, -, -⟩
    rcases h1 with h' | h' | h' | h' | h'
    · exact h' hm
    · omega
    · exact h' he
    · omega
    · exact h' hd
  · push_neg at h1
    refine iff_of_false (by decide) ?_
    rintro ⟨hm, hk, he, hd, hp, -, -, hv, -⟩
    exact hv h2.1 ((valuelenOf_eq_zero_iff h hwf he hp).mp h2.2)
  · push_neg at h1
    refine iff_of_false (by decide) ?_
    rintro ⟨hm, hk, he, hd, hp, -, -, -, hv⟩
    rcases Bool.eq_false_or_eq_true t.request_has_value with hreq | hreq
    · exact h3.1 hreq
    · exact h3.2 ((valuelenOf_eq_zero_iff h hwf he hp).mpr (hv hreq))
  · refine iff_of_false (by decide) ?_
    rintro ⟨hm, hk, he, hd, hp, -, hf, -, -⟩
    exact h4 hf
  · refine iff_of_false (by decide) ?_
    rintro ⟨hm, hk, he, hd, hp, hpe, -, -, -⟩
    rcases hpe with hpe | hpe
    · omega
    · exact h5.1 hpe
  · push_neg at h1
    obtain ⟨hm, hk, he, hp, hd⟩ := h1
    refine iff_of_true rfl ⟨hm, by omega, he, hd, by omega, ?_, by tauto, ?_, ?_⟩
    · by_cases hemp : t.allow_empty_path = true
      · exact Or.inr hemp
      · rcases Nat.eq_zero_or_pos h.pathlen with h0 | h0
        · exact absurd ⟨fun hc => hemp hc, h0⟩ h5
        · exact Or.inl h0
    · intro hreq hbody
      exact h2 ⟨hreq, (valuelenOf_eq_zero_iff h hwf he (by omega)).mpr hbody⟩
    · intro hreq
      by_contra hbody
      refine h3 ⟨fun hc => ?_, fun hzero => hbody ?_⟩
      · rw [hreq] at hc; exact Bool.false_ne_true hc
      · exact (valuelenOf_eq_zero_iff h hwf he (by omega)).mp hzero

/-- Witness for `subdoc_validator_accept_iff` at a concrete `SUBDOC_GET`
packet (key length 3, path length 2, body exactly key + extras + path). -/
theorem subdoc_validator_accept_iff_witness :
    subdoc_validator traitsGet
        { magic := 0x80, keylen := 3, extlen := 3, datatype := 0,
          bodylen := 8, pathlen := 2, subdoc_flags := 0 } = 0 :=
  (subdoc_validator_accept_iff traitsGet
      { magic := 0x80, keylen := 3, extlen := 3, datatype := 0,
        bodylen := 8, pathlen := 2, subdoc_flags := 0 } (by decide)).mpr (by decide)

/-! ## Multi-path lookup validator

Embedding of `subdoc_multi_lookup_validator`
(`subdocument_validators.cc` lines 120-198), at byte level: the packet
is the list of its bytes (24-byte header followed by `bodylen` body
bytes).  The C code checks `req->header.request.bodylen <
minimum_body_len` on the *raw* field — no `ntohl` — which on the
little-endian hosts the daemon runs on reads the four bytes
least-significant-first; this is modelled by `readU32LE`.  The spec
walk uses `ntohl`/`ntohs` (`readU32BE`/`readU16BE`).  The raw
`keylen == 0` comparison is endianness-independent, so it is modelled
with the decoded value. -/

def PROTOCOL_BINARY_SUBDOC_MULTI_MAX_PATHS : Nat := 16

/-- Opcode byte of the spec at body offset `bv` (the body begins at
packet offset 24). -/
def specOpcode (pkt : List Nat) (bv : Nat) : Nat := readByte pkt (24 + bv)

/-- Flags byte of the spec at body offset `bv`. -/
def specFlags (pkt : List Nat) (bv : Nat) : Nat := readByte pkt (24 + bv + 1)

/-- Decoded (`htons`) path length of the spec at body offset `bv`. -/
def specPathlen (pkt : List Nat) (bv : Nat) : Nat := readU16BE pkt (24 + bv + 2)

/-- Validation of one lookup spec (loop body, steps 2a and 2b of the
source): `none` means `return -1`, `some n` means the spec is valid
and consumes `n = sizeof(spec) + pathlen` body bytes. -/
def multi_spec_check (pkt : List Nat) (bv : Nat) : Option Nat :=
  if (specOpcode pkt bv ≠ CMD_SUBDOC_GET ∧ specOpcode pkt bv ≠ CMD_SUBDOC_EXISTS) ∨
      specPathlen pkt bv = 0 ∨ specPathlen pkt bv > SUBDOC_PATH_MAX_LENGTH then
    none
  else if specOpcode pkt bv = CMD_SUBDOC_GET then
    if specFlags pkt bv &&& (255 ^^^ traitsGet.valid_flags) ≠ 0 then none
    else some (4 + specPathlen pkt bv)
  else if specOpcode pkt bv = CMD_SUBDOC_EXISTS then
    if specFlags pkt bv &&& (255 ^^^ traitsExists.valid_flags) ≠ 0 then none
    else some (4 + specPathlen pkt bv)
  else
    none

/-- The spec-walking `for` loop.  `bv` is `body_validated`, `pi` is
`path_index`; the fuel argument equals `16 - pi` throughout (the loop
can iterate at most 16 times) and makes the recursion structural.
Returns `none` for an in-loop `return -1`, otherwise the final
`(path_index, body_validated)`. -/
def multi_lookup_walk (pkt : List Nat) (bodylen : Nat) : Nat → Nat → Nat → Option (Nat × Nat)
  | bv, pi, 0 => some (pi, bv)
  | bv, pi, fuel + 1 =>
    if pi < PROTOCOL_BINARY_SUBDOC_MULTI_MAX_PATHS ∧ bv < bodylen then
      (multi_spec_check pkt bv).elim none
        (fun speclen => multi_lookup_walk pkt bodylen (bv + speclen) (pi + 1) fuel)
    else some (pi, bv)

/-- Embedding of `subdoc_multi_lookup_validator`: 0 accepts, -1
rejects. -/
def subdoc_multi_lookup_validator (pkt : List Nat) : Int :=
  -- minimum_body_len = sizeof(protocol_binary_subdoc_multi_lookup_spec) + 1 = 5
  if readByte pkt 0 ≠ PROTOCOL_BINARY_REQ ∨ readU16BE pkt 2 = 0 ∨ readByte pkt 4 ≠ 0 ∨
      readU32LE pkt 8 < 5 ∨ readByte pkt 5 ≠ PROTOCOL_BINARY_RAW_BYTES then
    -1
  else
    (multi_lookup_walk pkt (readU32BE pkt 8) (readU16BE pkt 2) 0
        PROTOCOL_BINARY_SUBDOC_MULTI_MAX_PATHS).elim (-1)
      (fun r =>
        if 0 < r.1 ∧ r.1 ≤ PROTOCOL_BINARY_SUBDOC_MULTI_MAX_PATHS ∧ r.2 = readU32BE pkt 8 then 0
        else -1)

/-! ### Packet construction for the multi-lookup theorems -/

/-- One lookup spec of a multi-lookup request
(`opcode(u8) | flags(u8) | pathlen(u16) | path`). -/
structure LookupSpec where
  opcode : Nat
  flags : Nat
  path : List Nat
  deriving Repr, DecidableEq

/-- Structural encodability: every field fits its wire type. -/
def LookupSpec.Encodable (s : LookupSpec) : Prop :=
  s.opcode < 256 ∧ s.flags < 256 ∧ s.path.length < 2 ^ 16 ∧ ∀ b ∈ s.path, b < 256

/-- Semantic validity of one spec, matching the conditions
`multi_spec_check` tests on the wire bytes. -/
def LookupSpec.Good (s : LookupSpec) : Prop :=
  1 ≤ s.path.length ∧ s.path.length ≤ SUBDOC_PATH_MAX_LENGTH ∧
    ((s.opcode = CMD_SUBDOC_GET ∧ s.flags &&& (255 ^^^ traitsGet.valid_flags) = 0) ∨
     (s.opcode = CMD_SUBDOC_EXISTS ∧ s.flags &&& (255 ^^^ traitsExists.valid_flags) = 0))

instance (s : LookupSpec) : Decidable s.Encodable := by
  unfold LookupSpec.Encodable; infer_instance

instance (s : LookupSpec) : Decidable s.Good := by
  unfold LookupSpec.Good; infer_instance

/-- Wire encoding of one lookup spec. -/
def encodeSpec (s : LookupSpec) : List Nat :=
  [s.opcode, s.flags] ++ u16BE s.path.length ++ s.path

/-- The 24-byte request header (vbucket, opaque and CAS zero; extras
length 0; datatype RAW). -/
def mkHeader (opcode keylen bodylen : Nat) : List Nat :=
  [PROTOCOL_BINARY_REQ, opcode] ++ u16BE keylen ++ [0, 0, 0, 0] ++ u32BE bodylen ++
    List.replicate 12 0

/-- Wire encoding of a whole multi-lookup request packet. -/
def encodeMultiLookup (key : List Nat) (specs : List LookupSpec) : List Nat :=
  mkHeader CMD_SUBDOC_MULTI_LOOKUP key.length
      (key ++ (specs.map encodeSpec).flatten).length ++
    (key ++ (specs.map encodeSpec).flatten)

/-! ### Lemmas about reading encoded packets -/

theorem readByte_drop (pkt : List Nat) (n i : Nat) :
    readByte (pkt.drop n) i = readByte pkt (n + i) := by
  simp [readByte, List.getD, List.getElem?_drop]

theorem encodeSpec_length (s : LookupSpec) :
    (encodeSpec s).length = 4 + s.path.length := by
  simp [encodeSpec, u16BE]; omega

theorem spec_fields_of_drop (pkt : List Nat) (bv : Nat) (s : LookupSpec) (tail : List Nat)
    (hdrop : pkt.drop (24 + bv) = encodeSpec s ++ tail) (hp : s.path.length < 2 ^ 16) :
    specOpcode pkt bv = s.opcode ∧ specFlags pkt bv = s.flags ∧
      specPathlen pkt bv = s.path.length := by
  have hb : ∀ i, readByte pkt (24 + bv + i) = readByte (encodeSpec s ++ tail) i := by
    intro i
    rw [← hdrop, readByte_drop]
  refine ⟨?_, ?_, ?_⟩
  · have := hb 0
    rw [Nat.add_zero] at this
    rw [specOpcode, this]; rfl
  · rw [specFlags, hb 1]; rfl
  · have h2 : readByte (encodeSpec s ++ tail) 2 = s.path.length / 256 % 256 := rfl
    have h3 : readByte (encodeSpec s ++ tail) 3 = s.path.length % 256 := rfl
    have e2 := hb 2
    have e3 := hb 3
    rw [h2] at e2
    rw [h3] at e3
    have : specPathlen pkt bv =
        readByte pkt (24 + bv + 2) * 256 + readByte pkt (24 + bv + 3) := by
      simp [specPathlen, readU16BE]
    rw [this, e2, e3]
    omega

theorem multi_spec_check_encoded (pkt : List Nat) (bv : Nat) (s : LookupSpec)
    (tail : List Nat) (hdrop : pkt.drop (24 + bv) = encodeSpec s ++ tail)
    (henc : s.Encodable) (hgood : s.Good) :
    multi_spec_check pkt bv = some (4 + s.path.length) := by
  obtain ⟨hop, hfl, hplen⟩ := spec_fields_of_drop pkt bv s tail hdrop henc.2.2.1
  obtain ⟨hp1, hp2, hcase⟩ := hgood
  rw [multi_spec_check, hop, hfl, hplen]
  rcases hcase with ⟨hGET, hflags⟩ | ⟨hEX, hflags⟩
  · rw [hGET]
    have c1 : ¬(CMD_SUBDOC_GET ≠ CMD_SUBDOC_GET ∧ CMD_SUBDOC_GET ≠ CMD_SUBDOC_EXISTS ∨
        s.path.length = 0 ∨ s.path.length > SUBDOC_PATH_MAX_LENGTH) := by
      push_neg
      exact ⟨fun hne => absurd rfl hne, by omega, by omega⟩
    have c3 : ¬s.flags &&& (255 ^^^ traitsGet.valid_flags) ≠ 0 := by simp [hflags]
    rw [if_neg c1, if_pos rfl, if_neg c3]
  · rw [hEX]
    have c1 : ¬(CMD_SUBDOC_EXISTS ≠ CMD_SUBDOC_GET ∧ CMD_SUBDOC_EXISTS ≠ CMD_SUBDOC_EXISTS ∨
        s.path.length = 0 ∨ s.path.length > SUBDOC_PATH_MAX_LENGTH) := by
      push_neg
      exact ⟨fun _ => rfl, by omega, by omega⟩
    have c2 : CMD_SUBDOC_EXISTS ≠ CMD_SUBDOC_GET := by decide
    have c5 : ¬s.flags &&& (255 ^^^ traitsExists.valid_flags) ≠ 0 := by simp [hflags]
    rw [if_neg c1, if_neg c2, if_pos rfl, if_neg c5]

theorem multi_spec_check_encoded_bad (pkt : List Nat) (bv : Nat) (s : LookupSpec)
    (tail : List Nat) (hdrop : pkt.drop (24 + bv) = encodeSpec s ++ tail)
    (henc : s.Encodable) (hbad : ¬s.Good) :
    multi_spec_check pkt bv = none := by
  obtain ⟨hop, hfl, hplen⟩ := spec_fields_of_drop pkt bv s tail hdrop henc.2.2.1
  rw [LookupSpec.Good] at hbad
  push_neg at hbad
  rw [multi_spec_check, hop, hfl, hplen]
  by_cases h1 : (s.opcode ≠ CMD_SUBDOC_GET ∧ s.opcode ≠ CMD_SUBDOC_EXISTS) ∨
      s.path.length = 0 ∨ s.path.length > SUBDOC_PATH_MAX_LENGTH
  · rw [if_pos h1]
  · rw [if_neg h1]
    push_neg at h1
    obtain ⟨hops, hp0, hpmax⟩ := h1
    have hbad' := hbad (by omega) (by omega)
    by_cases hGET : s.opcode = CMD_SUBDOC_GET
    · rw [if_pos hGET]
      rw [if_pos (hbad'.1 hGET)]
    · rw [if_neg hGET]
      have hEX : s.opcode = CMD_SUBDOC_EXISTS := (hops hGET)
      rw [if_pos hEX]
      rw [if_pos (hbad'.2 hEX)]

theorem multi_spec_check_some_ge (pkt : List Nat) (bv sl : Nat)
    (h : multi_spec_check pkt bv = some sl) : 5 ≤ sl := by
  rw [multi_spec_check] at h
  split_ifs at h with h1 h2 h3 h4 h5
  all_goals simp at h
  all_goals push_neg at h1
  all_goals omega

/-- Walking a run of well-formed encoded specs advances `body_validated`
by their total encoded length and `path_index` by their count. -/
theorem multi_lookup_walk_advance (pkt : List Nat) (bodylen : Nat) :
    ∀ (ss : List LookupSpec) (tail : List Nat) (bv pi fuel : Nat),
      (∀ s ∈ ss, s.Encodable ∧ s.Good) →
      pkt.drop (24 + bv) = (ss.map encodeSpec).flatten ++ tail →
      bv + ((ss.map encodeSpec).flatten).length ≤ bodylen →
      pi + ss.length ≤ PROTOCOL_BINARY_SUBDOC_MULTI_MAX_PATHS →
      ss.length ≤ fuel →
      multi_lookup_walk pkt bodylen bv pi fuel =
        multi_lookup_walk pkt bodylen (bv + ((ss.map encodeSpec).flatten).length)
          (pi + ss.length) (fuel - ss.length) := by
  intro ss
  induction ss with
  | nil => intro tail bv pi fuel _ _ _ _ _; simp
  | cons s rest ih =>
    intro tail bv pi fuel hgood hdrop hlen hpi hfuel
    obtain ⟨fuel', rfl⟩ : ∃ f, fuel = f + 1 := by
      cases fuel with
      | zero => simp at hfuel
      | succ f => exact ⟨f, rfl⟩
    have hslen : (encodeSpec s).length = 4 + s.path.length := encodeSpec_length s
    have hflat :
        ((s :: rest).map encodeSpec).flatten = encodeSpec s ++ (rest.map encodeSpec).flatten := by
      simp
    have hgs := hgood s (by simp)
    have hp1 : 1 ≤ s.path.length := hgs.2.1
    have hdrop' : pkt.drop (24 + bv) = encodeSpec s ++ ((rest.map encodeSpec).flatten ++ tail) := by
      rw [hdrop, hflat, List.append_assoc]
    have hcheck := multi_spec_check_encoded pkt bv s _ hdrop' hgs.1 hgs.2
    have hcond : pi < PROTOCOL_BINARY_SUBDOC_MULTI_MAX_PATHS ∧ bv < bodylen := by
      constructor
      · simp only [List.length_cons] at hpi; omega
      · rw [hflat] at hlen
        simp only [List.length_append, hslen] at hlen
        omega
    rw [multi_lookup_walk, if_pos hcond, hcheck]
    simp only [Option.elim_some]
    have hdropnext : pkt.drop (24 + (bv + (4 + s.path.length))) =
        (rest.map encodeSpec).flatten ++ tail := by
      have hsplit : pkt.drop (24 + (bv + (4 + s.path.length))) =
          (pkt.drop (24 + bv)).drop (4 + s.path.length) := by
        rw [List.drop_drop]
        congr 1
        omega
      rw [hsplit, hdrop', ← hslen, List.drop_left]
    have ihx := ih tail (bv + (4 + s.path.length)) (pi + 1) fuel'
        (fun t ht => hgood t (by simp [ht]))
        hdropnext
        (by rw [hflat] at hlen; simp only [List.length_append, hslen] at hlen; omega)
        (by simp only [List.length_cons] at hpi; omega)
        (by simp only [List.length_cons] at hfuel; omega)
    rw [ihx]
    have e1 : bv + (4 + s.path.length) + ((rest.map encodeSpec).flatten).length =
        bv + (((s :: rest).map encodeSpec).flatten).length := by
      rw [hflat]; simp [hslen]; omega
    have e2 : pi + 1 + rest.length = pi + (s :: rest).length := by simp; omega
    have e3 : fuel' - rest.length = fuel' + 1 - (s :: rest).length := by simp
    rw [e1, e2, e3]

/-- When `body_validated` has reached `bodylen`, the loop stops at once. -/
theorem multi_lookup_walk_at_end (pkt : List Nat) (bodylen pi fuel : Nat) :
    multi_lookup_walk pkt bodylen bodylen pi fuel = some (pi, bodylen) := by
  cases fuel with
  | zero => rfl
  | succ f =>
    rw [multi_lookup_walk, if_neg]
    intro hc
    exact absurd hc.2 (by omega)

/-- Every iteration of the spec walk advances `body_validated` by at
least 5 bytes (a spec header plus a non-empty path). -/
theorem multi_lookup_walk_progress (pkt : List Nat) (bodylen : Nat) :
    ∀ (fuel bv pi pi' bv' : Nat),
      multi_lookup_walk pkt bodylen bv pi fuel = some (pi', bv') →
      (pi' = pi ∧ bv' = bv) ∨ (pi < pi' ∧ bv + 5 ≤ bv') := by
  intro fuel
  induction fuel with
  | zero =>
    intro bv pi pi' bv' hw
    rw [multi_lookup_walk] at hw
    injection hw with hw'
    injection hw' with a b
    exact Or.inl ⟨a.symm, b.symm⟩
  | succ f ih =>
    intro bv pi pi' bv' hw
    rw [multi_lookup_walk] at hw
    split_ifs at hw with hc
    · cases hcheck : multi_spec_check pkt bv with
      | none => rw [hcheck] at hw; exact absurd hw (by simp)
      | some sl =>
        rw [hcheck] at hw
        simp only [Option.elim_some] at hw
        have h5 := multi_spec_check_some_ge pkt bv sl hcheck
        rcases ih (bv + sl) (pi + 1) pi' bv' hw with ⟨ha, hb⟩ | ⟨ha, hb⟩
        · exact Or.inr ⟨by omega, by omega⟩
        · exact Or.inr ⟨by omega, by omega⟩
    · injection hw with hw'
      injection hw' with a b
      exact Or.inl ⟨a.symm, b.symm⟩

/-- Well-formedness of an encodable multi-lookup request: non-empty key
fitting the u16 length field, byte-valued key, and per-spec validity. -/
def MultiLookupWF (key : List Nat) (specs : List LookupSpec) : Prop :=
  1 ≤ key.length ∧ key.length < 2 ^ 16 ∧ (∀ b ∈ key, b < 256) ∧
    ∀ s ∈ specs, s.Encodable ∧ s.Good

instance (key : List Nat) (specs : List LookupSpec) : Decidable (MultiLookupWF key specs) := by
  unfold MultiLookupWF; infer_instance

theorem encodeMultiLookup_readByte0 (key : List Nat) (specs : List LookupSpec) :
    readByte (encodeMultiLookup key specs) 0 = PROTOCOL_BINARY_REQ := rfl

theorem encodeMultiLookup_readByte4 (key : List Nat) (specs : List LookupSpec) :
    readByte (encodeMultiLookup key specs) 4 = 0 := rfl

theorem encodeMultiLookup_readByte5 (key : List Nat) (specs : List LookupSpec) :
    readByte (encodeMultiLookup key specs) 5 = 0 := rfl

theorem encodeMultiLookup_keylen (key : List Nat) (specs : List LookupSpec)
    (hk : key.length < 2 ^ 16) :
    readU16BE (encodeMultiLookup key specs) 2 = key.length := by
  have e2 : readByte (encodeMultiLookup key specs) 2 = key.length / 256 % 256 := rfl
  have e3 : readByte (encodeMultiLookup key specs) 3 = key.length % 256 := rfl
  rw [readU16BE, e2, e3]
  omega

theorem encodeMultiLookup_bodylen (key : List Nat) (specs : List LookupSpec)
    (hb : (key ++ (specs.map encodeSpec).flatten).length < 2 ^ 32) :
    readU32BE (encodeMultiLookup key specs) 8 =
      (key ++ (specs.map encodeSpec).flatten).length := by
  have e8 : readByte (encodeMultiLookup key specs) 8 =
      (key ++ (specs.map encodeSpec).flatten).length / 2 ^ 24 % 256 := rfl
  have e9 : readByte (encodeMultiLookup key specs) 9 =
      (key ++ (specs.map encodeSpec).flatten).length / 2 ^ 16 % 256 := rfl
  have e10 : readByte (encodeMultiLookup key specs) 10 =
      (key ++ (specs.map encodeSpec).flatten).length / 256 % 256 := rfl
  have e11 : readByte (encodeMultiLookup key specs) 11 =
      (key ++ (specs.map encodeSpec).flatten).length % 256 := rfl
  rw [readU32BE, e8, e9, e10, e11]
  omega

/-- The raw little-endian read of the body-length field is at least 5
whenever the true body length is between 5 and `2^24`. -/
theorem encodeMultiLookup_rawbodylen_ge (key : List Nat) (specs : List LookupSpec)
    (h5 : 5 ≤ (key ++ (specs.map encodeSpec).flatten).length)
    (hb : (key ++ (specs.map encodeSpec).flatten).length < 2 ^ 24) :
    5 ≤ readU32LE (encodeMultiLookup key specs) 8 := by
  have e8 : readByte (encodeMultiLookup key specs) 8 =
      (key ++ (specs.map encodeSpec).flatten).length / 2 ^ 24 % 256 := rfl
  have e9 : readByte (encodeMultiLookup key specs) 9 =
      (key ++ (specs.map encodeSpec).flatten).length / 2 ^ 16 % 256 := rfl
  have e10 : readByte (encodeMultiLookup key specs) 10 =
      (key ++ (specs.map encodeSpec).flatten).length / 256 % 256 := rfl
  have e11 : readByte (encodeMultiLookup key specs) 11 =
      (key ++ (specs.map encodeSpec).flatten).length % 256 := rfl
  rw [readU32LE]
  rw [show (8 : Nat) + 3 = 11 from rfl, show (8 : Nat) + 2 = 10 from rfl,
    show (8 : Nat) + 1 = 9 from rfl, e8, e9, e10, e11]
  omega

theorem encodeMultiLookup_drop24 (key : List Nat) (specs : List LookupSpec) :
    (encodeMultiLookup key specs).drop 24 = key ++ (specs.map encodeSpec).flatten := rfl

/-- Total encoded length of a list of well-formed specs is between
`5 * n` and `1028 * n`. -/
theorem flatten_encodeSpec_length_bounds (specs : List LookupSpec)
    (h : ∀ s ∈ specs, s.Encodable ∧ s.Good) :
    5 * specs.length ≤ ((specs.map encodeSpec).flatten).length ∧
      ((specs.map encodeSpec).flatten).length ≤ 1028 * specs.length := by
  induction specs with
  | nil => simp
  | cons s rest ih =>
    have hs := h s (by simp)
    have hrest := ih (fun t ht => h t (by simp [ht]))
    have hlen := encodeSpec_length s
    have h1 : 1 ≤ s.path.length := hs.2.1
    have h2 : s.path.length ≤ SUBDOC_PATH_MAX_LENGTH := hs.2.2.1
    simp only [List.map_cons, List.flatten_cons, List.length_append, List.length_cons]
    rw [SUBDOC_PATH_MAX_LENGTH] at h2
    constructor
    · omega
    · omega

/-- C4: the multi-lookup validator (i) rejects a packet whose body
holds only the key (0 specs), (ii) accepts every well-formed packet of
1..16 specs, (iii) rejects a well-formed packet of 17 or more specs,
and (iv) accepts only with extras length 0, declared body length at
least `sizeof(spec) + 1 = 5`, and the walked byte count exactly equal
to the declared body length over 1..16 specs. -/
theorem subdoc_multi_lookup_validator_bounds :
    (∀ pkt : List Nat, readU32BE pkt 8 = readU16BE pkt 2 →
        subdoc_multi_lookup_validator pkt = -1) ∧
    (∀ key specs, MultiLookupWF key specs →
        1 ≤ specs.length → specs.length ≤ PROTOCOL_BINARY_SUBDOC_MULTI_MAX_PATHS →
        subdoc_multi_lookup_validator (encodeMultiLookup key specs) = 0) ∧
    (∀ key specs, MultiLookupWF key specs →
        PROTOCOL_BINARY_SUBDOC_MULTI_MAX_PATHS + 1 ≤ specs.length →
        (key ++ (specs.map encodeSpec).flatten).length < 2 ^ 32 →
        subdoc_multi_lookup_validator (encodeMultiLookup key specs) = -1) ∧
    (∀ pkt : List Nat, subdoc_multi_lookup_validator pkt = 0 →
        readByte pkt 4 = 0 ∧ 5 ≤ readU32BE pkt 8 ∧
        ∃ pi, 1 ≤ pi ∧ pi ≤ PROTOCOL_BINARY_SUBDOC_MULTI_MAX_PATHS ∧
          multi_lookup_walk pkt (readU32BE pkt 8) (readU16BE pkt 2) 0
              PROTOCOL_BINARY_SUBDOC_MULTI_MAX_PATHS = some (pi, readU32BE pkt 8)) := by
  refine ⟨?_, ?_, ?_, ?_⟩
  · -- (i) zero specs: the body is exactly the key
    intro pkt h0
    rw [subdoc_multi_lookup_validator]
    split_ifs with hearly
    · rfl
    · rw [← h0, multi_lookup_walk_at_end, Option.elim_some, if_neg]
      intro hc
      exact absurd hc.1 (by omega)
  · -- (ii) 1..16 well-formed specs accepted
    intro key specs hwf h1 h16
    obtain ⟨hk1, hk2, hkb, hspecs⟩ := hwf
    have hbounds := flatten_encodeSpec_length_bounds specs hspecs
    have hn32 : (key ++ (specs.map encodeSpec).flatten).length < 2 ^ 32 := by
      rw [List.length_append]
      rw [PROTOCOL_BINARY_SUBDOC_MULTI_MAX_PATHS] at h16
      omega
    have hn24 : (key ++ (specs.map encodeSpec).flatten).length < 2 ^ 24 := by
      rw [List.length_append]
      rw [PROTOCOL_BINARY_SUBDOC_MULTI_MAX_PATHS] at h16
      omega
    have hn5 : 5 ≤ (key ++ (specs.map encodeSpec).flatten).length := by
      rw [List.length_append]
      omega
    rw [subdoc_multi_lookup_validator, if_neg]
    · rw [encodeMultiLookup_keylen key specs hk2, encodeMultiLookup_bodylen key specs hn32]
      have hdrop : (encodeMultiLookup key specs).drop (24 + key.length) =
          (specs.map encodeSpec).flatten ++ [] := by
        rw [List.append_nil]
        have hsplit : (encodeMultiLookup key specs).drop (24 + key.length) =
            ((encodeMultiLookup key specs).drop 24).drop key.length := by
          rw [List.drop_drop]
        rw [hsplit, encodeMultiLookup_drop24]
        exact List.drop_left key _
      have hadv := multi_lookup_walk_advance (encodeMultiLookup key specs)
          (key ++ (specs.map encodeSpec).flatten).length specs [] key.length 0
          PROTOCOL_BINARY_SUBDOC_MULTI_MAX_PATHS hspecs hdrop
          (by rw [List.length_append]) (by simpa using h16) h16
      rw [hadv]
      have hbv : key.length + ((specs.map encodeSpec).flatten).length =
          (key ++ (specs.map encodeSpec).flatten).length := (List.length_append _ _).symm
      rw [hbv, multi_lookup_walk_at_end, Option.elim_some, if_pos]
      exact ⟨by omega, by simpa using h16, rfl⟩
    · push_neg
      refine ⟨encodeMultiLookup_readByte0 key specs, ?_, encodeMultiLookup_readByte4 key specs,
        ?_, encodeMultiLookup_readByte5 key specs⟩
      · rw [encodeMultiLookup_keylen key specs hk2]; omega
      · exact encodeMultiLookup_rawbodylen_ge key specs hn5 hn24
  · -- (iii) 17 or more specs rejected
    intro key specs hwf h17 h32
    obtain ⟨hk1, hk2, hkb, hspecs⟩ := hwf
    rw [subdoc_multi_lookup_validator]
    split_ifs with hearly
    · rfl
    · rw [encodeMultiLookup_keylen key specs hk2, encodeMultiLookup_bodylen key specs h32]
      have hTgood : ∀ s ∈ specs.take 16, s.Encodable ∧ s.Good :=
        fun s hs => hspecs s (List.mem_of_mem_take hs)
      have hDgood : ∀ s ∈ specs.drop 16, s.Encodable ∧ s.Good :=
        fun s hs => hspecs s (List.mem_of_mem_drop hs)
      have hTlen : (specs.take 16).length = 16 := by
        rw [List.length_take]
        rw [PROTOCOL_BINARY_SUBDOC_MULTI_MAX_PATHS] at h17
        omega
      have hDlen : 1 ≤ (specs.drop 16).length := by
        rw [List.length_drop]
        rw [PROTOCOL_BINARY_SUBDOC_MULTI_MAX_PATHS] at h17
        omega
      have hDbound := flatten_encodeSpec_length_bounds (specs.drop 16) hDgood
      have hsplit : (specs.map encodeSpec).flatten =
          ((specs.take 16).map encodeSpec).flatten ++
            ((specs.drop 16).map encodeSpec).flatten := by
        rw [← List.flatten_append, ← List.map_append, List.take_append_drop]
      have hdrop : (encodeMultiLookup key specs).drop (24 + key.length) =
          ((specs.take 16).map encodeSpec).flatten ++
            ((specs.drop 16).map encodeSpec).flatten := by
        have hs2 : (encodeMultiLookup key specs).drop (24 + key.length) =
            ((encodeMultiLookup key specs).drop 24).drop key.length := by
          rw [List.drop_drop]
        rw [hs2, encodeMultiLookup_drop24, List.drop_left, hsplit]
      have hlensum : (key ++ (specs.map encodeSpec).flatten).length =
          key.length + (((specs.take 16).map encodeSpec).flatten).length +
            (((specs.drop 16).map encodeSpec).flatten).length := by
        rw [List.length_append, hsplit, List.length_append]
        omega
      have hadv := multi_lookup_walk_advance (encodeMultiLookup key specs)
          (key ++ (specs.map encodeSpec).flatten).length (specs.take 16)
          ((specs.drop 16).map encodeSpec).flatten key.length 0
          PROTOCOL_BINARY_SUBDOC_MULTI_MAX_PATHS hTgood hdrop
          (by omega) (by rw [hTlen]; decide) (by rw [hTlen]; decide)
      rw [hadv, hTlen]
      have hzero : PROTOCOL_BINARY_SUBDOC_MULTI_MAX_PATHS - 16 = 0 := rfl
      rw [hzero, multi_lookup_walk, Option.elim_some, if_neg]
      intro hc
      have := hc.2.2
      omega
  · -- (iv) necessary conditions on any accepted packet
    intro pkt hacc
    rw [subdoc_multi_lookup_validator] at hacc
    by_cases hearly : readByte pkt 0 ≠ PROTOCOL_BINARY_REQ ∨ readU16BE pkt 2 = 0 ∨
        readByte pkt 4 ≠ 0 ∨ readU32LE pkt 8 < 5 ∨ readByte pkt 5 ≠ PROTOCOL_BINARY_RAW_BYTES
    · rw [if_pos hearly] at hacc
      exact absurd hacc (by decide)
    · rw [if_neg hearly] at hacc
      push_neg at hearly
      obtain ⟨hmagic, hkey, hext, hlen5, hdt⟩ := hearly
      refine ⟨hext, ?_, ?_⟩
      · cases hw : multi_lookup_walk pkt (readU32BE pkt 8) (readU16BE pkt 2) 0
            PROTOCOL_BINARY_SUBDOC_MULTI_MAX_PATHS with
        | none => rw [hw] at hacc; exact absurd hacc (by simp)
        | some r =>
          rw [hw, Option.elim_some] at hacc
          split_ifs at hacc with hcond
          · have hw' : multi_lookup_walk pkt (readU32BE pkt 8) (readU16BE pkt 2) 0
                PROTOCOL_BINARY_SUBDOC_MULTI_MAX_PATHS = some (r.1, r.2) := hw
            rcases multi_lookup_walk_progress pkt (readU32BE pkt 8) _ _ _ _ _ hw' with
              ⟨ha, hb⟩ | ⟨ha, hb⟩
            · exact absurd hcond.1 (by omega)
            · have := hcond.2.2
              omega
      · cases hw : multi_lookup_walk pkt (readU32BE pkt 8) (readU16BE pkt 2) 0
            PROTOCOL_BINARY_SUBDOC_MULTI_MAX_PATHS with
        | none => rw [hw] at hacc; exact absurd hacc (by simp)
        | some r =>
          rw [hw, Option.elim_some] at hacc
          split_ifs at hacc with hcond
          · exact ⟨r.1, hcond.1, hcond.2.1, congrArg some (Prod.ext rfl hcond.2.2)⟩

/-- Witness for `subdoc_multi_lookup_validator_bounds`: a one-spec
multi-lookup (key `"k"`, one `EXISTS` spec with path `"0"`) is
accepted. -/
theorem subdoc_multi_lookup_validator_bounds_witness :
    subdoc_multi_lookup_validator
        (encodeMultiLookup [107] [{ opcode := CMD_SUBDOC_EXISTS, flags := 0, path := [48] }]) =
      0 :=
  subdoc_multi_lookup_validator_bounds.2.1 [107]
    [{ opcode := CMD_SUBDOC_EXISTS, flags := 0, path := [48] }]
    (by decide) (by decide) (by decide)

/-- C5: a multi-lookup packet in which some spec among the first 16 —
all earlier specs being valid — has a non-lookup opcode (any mutator or
nested MULTI opcode), an out-of-range path length, or flags outside its
opcode's `valid_flags`, is rejected as a whole. -/
theorem subdoc_multi_lookup_spec_rejection
    (key : List Nat) (specs : List LookupSpec) (j : Nat)
    (hk2 : key.length < 2 ^ 16)
    (henc : ∀ s ∈ specs, s.Encodable)
    (h32 : (key ++ (specs.map encodeSpec).flatten).length < 2 ^ 32)
    (hj : j < specs.length) (hj16 : j < PROTOCOL_BINARY_SUBDOC_MULTI_MAX_PATHS)
    (hpre : ∀ s ∈ specs.take j, s.Good)
    (hbad : ¬(specs.get ⟨j, hj⟩).Good) :
    subdoc_multi_lookup_validator (encodeMultiLookup key specs) = -1 := by
  rw [subdoc_multi_lookup_validator]
  split_ifs with hearly
  · rfl
  · rw [encodeMultiLookup_keylen key specs hk2, encodeMultiLookup_bodylen key specs h32]
    have hTgood : ∀ s ∈ specs.take j, s.Encodable ∧ s.Good :=
      fun s hs => ⟨henc s (List.mem_of_mem_take hs), hpre s hs⟩
    have hTlen : (specs.take j).length = j := by
      rw [List.length_take]
      omega
    have hdropj : specs.drop j = specs.get ⟨j, hj⟩ :: specs.drop (j + 1) := by
      rw [List.drop_eq_getElem_cons hj]
      rfl
    have hsplit : (specs.map encodeSpec).flatten =
        ((specs.take j).map encodeSpec).flatten ++
          (encodeSpec (specs.get ⟨j, hj⟩) ++
            ((specs.drop (j + 1)).map encodeSpec).flatten) := by
      conv_lhs => rw [← List.take_append_drop j specs, hdropj]
      rw [List.map_append, List.map_cons, List.flatten_append, List.flatten_cons]
    have hdrop : (encodeMultiLookup key specs).drop (24 + key.length) =
        ((specs.take j).map encodeSpec).flatten ++
          (encodeSpec (specs.get ⟨j, hj⟩) ++
            ((specs.drop (j + 1)).map encodeSpec).flatten) := by
      have hs2 : (encodeMultiLookup key specs).drop (24 + key.length) =
          ((encodeMultiLookup key specs).drop 24).drop key.length := by
        rw [List.drop_drop]
      rw [hs2, encodeMultiLookup_drop24, List.drop_left, hsplit]
    have hlensum : (key ++ (specs.map encodeSpec).flatten).length =
        key.length + (((specs.take j).map encodeSpec).flatten).length +
          (encodeSpec (specs.get ⟨j, hj⟩)).length +
          (((specs.drop (j + 1)).map encodeSpec).flatten).length := by
      rw [List.length_append, hsplit]
      simp [List.length_append]
      omega
    have hadv := multi_lookup_walk_advance (encodeMultiLookup key specs)
        (key ++ (specs.map encodeSpec).flatten).length (specs.take j)
        (encodeSpec (specs.get ⟨j, hj⟩) ++ ((specs.drop (j + 1)).map encodeSpec).flatten)
        key.length 0 PROTOCOL_BINARY_SUBDOC_MULTI_MAX_PATHS hTgood hdrop
        (by omega)
        (by rw [hTlen]; rw [PROTOCOL_BINARY_SUBDOC_MULTI_MAX_PATHS] at hj16 ⊢; omega)
        (by rw [hTlen]; rw [PROTOCOL_BINARY_SUBDOC_MULTI_MAX_PATHS] at hj16 ⊢; omega)
    rw [hadv, hTlen]
    have hdropbvj : (encodeMultiLookup key specs).drop
        (24 + (key.length + (((specs.take j).map encodeSpec).flatten).length)) =
        encodeSpec (specs.get ⟨j, hj⟩) ++
          ((specs.drop (j + 1)).map encodeSpec).flatten := by
      have hs3 : 24 + (key.length + (((specs.take j).map encodeSpec).flatten).length) =
          (24 + key.length) + (((specs.take j).map encodeSpec).flatten).length := by
        omega
      rw [hs3, ← List.drop_drop, hdrop, List.drop_left]
    have hcheckbad := multi_spec_check_encoded_bad (encodeMultiLookup key specs)
        (key.length + (((specs.take j).map encodeSpec).flatten).length)
        (specs.get ⟨j, hj⟩) _ hdropbvj (henc _ (List.get_mem specs _ hj)) hbad
    obtain ⟨f, hf⟩ : ∃ f, PROTOCOL_BINARY_SUBDOC_MULTI_MAX_PATHS - j = f + 1 := by
      rw [PROTOCOL_BINARY_SUBDOC_MULTI_MAX_PATHS] at hj16 ⊢
      exact ⟨15 - j, by omega⟩
    rw [hf, multi_lookup_walk, if_pos, hcheckbad]
    · rfl
    · constructor
      · simpa using hj16
      · have he := encodeSpec_length (specs.get ⟨j, hj⟩)
        omega

/-- Witness for `subdoc_multi_lookup_spec_rejection`: a packet whose
second spec carries the mutator opcode `DICT_ADD` is rejected. -/
theorem subdoc_multi_lookup_spec_rejection_witness :
    subdoc_multi_lookup_validator
        (encodeMultiLookup [107]
          [{ opcode := CMD_SUBDOC_GET, flags := 0, path := [48] },
           { opcode := CMD_SUBDOC_DICT_ADD, flags := 0, path := [48] }]) = -1 :=
  subdoc_multi_lookup_spec_rejection [107]
    [{ opcode := CMD_SUBDOC_GET, flags := 0, path := [48] },
     { opcode := CMD_SUBDOC_DICT_ADD, flags := 0, path := [48] }] 1
    (by decide) (by decide) (by decide) (by decide) (by decide) (by decide) (by decide)

/-! ## Storage engine, Subdoc library and connection environment

The engine (allocate/get/store/release/item_set_cas/get_item_info),
snappy, and the Subdoc operation library are external collaborators
(spec sections 2 and 4.3).  Their responses during one attempt of the
executor are modelled by an `AttemptEnv`; a full run consumes one
environment per attempt, so concurrent mutations by other clients are
modelled by attempt-indexed environments. -/

inductive EngineCode
  | success
  | ewouldblock
  | disconnect
  | key_eexists
  | key_enoent
  | tmpfail
  | failed
  | enomem
  deriving Repr, DecidableEq

inductive EngineRes (α : Type)
  | ok (a : α)
  | err (e : EngineCode)
  deriving Repr, DecidableEq

/-- Protocol statuses the sub-document front-end emits. -/
inductive Status
  | success
  | key_eexists
  | einternal
  | e2big
  | etmpfail
  | subdoc_doc_notjson
  | subdoc_path_enoent
  | subdoc_path_mismatch
  | subdoc_doc_e2deep
  | subdoc_path_einval
  | subdoc_path_eexists
  | subdoc_path_e2big
  | subdoc_num_erange
  | subdoc_delta_erange
  | subdoc_value_cantinsert
  | subdoc_value_etoodeep
  | engine_err (e : EngineCode)
  deriving Repr, DecidableEq

/-- Modelled from the spec: `engine_error_2_protocol_error`
(`utilities/protocol2text`, outside `src/`) maps engine codes to
protocol statuses; the concurrency table of spec section 7 fixes
`KEY_EEXISTS` and `TMPFAIL`, the remaining codes are mapped
abstractly. -/
def engine_error_2_protocol_error : EngineCode → Status
  | .key_eexists => .key_eexists
  | .tmpfail => .etmpfail
  | e => .engine_err e

/-- Error codes of the Subdoc operation library (spec section 4.3). -/
inductive SubdocErr
  | success
  | path_enoent
  | path_mismatch
  | doc_etoodeep
  | path_einval
  | doc_eexists
  | path_e2big
  | num_e2big
  | delta_e2big
  | value_cantinsert
  | value_etoodeep
  | other
  deriving Repr, DecidableEq

/-- The switch in `subdoc_operate` (subdocument.cc lines 415-468)
mapping Subdoc library errors to protocol statuses. -/
def subdoc_error_map : SubdocErr → Status
  | .success => .success
  | .path_enoent => .subdoc_path_enoent
  | .path_mismatch => .subdoc_path_mismatch
  | .doc_etoodeep => .subdoc_doc_e2deep
  | .path_einval => .subdoc_path_einval
  | .doc_eexists => .subdoc_path_eexists
  | .path_e2big => .subdoc_path_e2big
  | .num_e2big => .subdoc_num_erange
  | .delta_e2big => .subdoc_delta_erange
  | .value_cantinsert => .subdoc_value_cantinsert
  | .value_etoodeep => .subdoc_value_etoodeep
  | .other => .einternal

/-- The `item_info` the engine reports for an item: its CAS, datatype
byte and value iovec segments (`nvalue` is the number of segments). -/
structure ItemInfo where
  cas : Nat
  datatype : Nat
  segments : List (List Nat)
  deriving Repr, DecidableEq

/-- Environment for one attempt of the executor: engine and library
responses.  Items are identified by numbers. -/
structure AttemptEnv where
  /-- Result of `bucket_engine->get`. -/
  get : EngineRes Nat
  /-- Result of `get_item_info` per item. -/
  infoOf : Nat → Option ItemInfo
  /-- Result of `snappy_uncompressed_length`. -/
  snappyLen : List Nat → Option Nat
  /-- Result of `snappy_uncompress`. -/
  snappyUncompress : List Nat → Option (List Nat)
  /-- Whether `growDynamicBuffer` succeeds for a given size. -/
  canGrow : Nat → Bool
  /-- Result of `op->op_exec`. -/
  opResult : SubdocErr
  /-- The `newdoc` fragments the library yields on success. -/
  opNewdoc : List (List Nat)
  /-- The `matchloc` the library yields on success. -/
  opMatch : List Nat
  /-- Result of `bucket_engine->allocate`. -/
  allocate : EngineRes Nat
  /-- Result of `bucket_engine->store` (new CAS on success). -/
  store : EngineRes Nat

/-! ## Document materializer (`get_document_for_searching`) -/

/-- Result of `get_document_for_searching`: the status, the document
buffer on success, the CAS out-parameter (assigned once the CAS check
has passed), and the sizes by which the connection's dynamic buffer was
grown. -/
structure MatResult where
  status : Status
  doc : Option (List Nat)
  casOut : Option Nat
  grown : List Nat
  deriving Repr, DecidableEq

/-- Embedding of `get_document_for_searching` (subdocument.cc lines
212-328). -/
def get_document_for_searching (env : AttemptEnv) (it : Nat) (in_cas : Nat) : MatResult :=
  match env.infoOf it with
  | none =>
    -- get_item_info failed
    { status := .einternal, doc := none, casOut := none, grown := [] }
  | some info =>
    -- need the complete document in a single iovec
    if info.segments.length ≠ 1 then
      { status := .einternal, doc := none, casOut := none, grown := [] }
    -- check CAS matches (if specified by the user)
    else if in_cas ≠ 0 ∧ in_cas ≠ info.cas then
      { status := .key_eexists, doc := none, casOut := none, grown := [] }
    else
      -- set CAS - same irrespective of datatype
      let seg := info.segments.headD []
      if info.datatype = PROTOCOL_BINARY_DATATYPE_JSON then
        { status := .success, doc := some seg, casOut := some info.cas, grown := [] }
      else if info.datatype = PROTOCOL_BINARY_DATATYPE_COMPRESSED_JSON then
        match env.snappyLen seg with
        | none => { status := .einternal, doc := none, casOut := some info.cas, grown := [] }
        | some ulen =>
          if env.canGrow ulen = false then
            { status := .e2big, doc := none, casOut := some info.cas, grown := [] }
          else
            match env.snappyUncompress seg with
            | none =>
              { status := .einternal, doc := none, casOut := some info.cas, grown := [ulen] }
            | some udoc =>
              { status := .success, doc := some udoc, casOut := some info.cas,
                grown := [ulen] }
      else if info.datatype = PROTOCOL_BINARY_RAW_BYTES ∨
          info.datatype = PROTOCOL_BINARY_DATATYPE_COMPRESSED then
        { status := .subdoc_doc_notjson, doc := none, casOut := some info.cas, grown := [] }
      else
        { status := .einternal, doc := none, casOut := some info.cas, grown := [] }

/-! ## Command context, connection state and call traces -/

/-- The new item being built for write-back (`out_doc` plus the engine
state the code sets on it: length, datatype, CAS, backing buffer). -/
structure OutDoc where
  id : Nat
  len : Nat
  datatype : Nat
  cas : Nat
  buffer : List Nat
  deriving Repr, DecidableEq

/-- The `Subdoc::Result` slots used by the executor. -/
structure SubdocResult where
  newdoc : List (List Nat)
  matchloc : List Nat
  deriving Repr, DecidableEq

/-- Embedding of `SubdocCmdContext` (subdocument_context.h lines
45-82). -/
structure SubdocCmdContext where
  in_doc : Option (List Nat)
  in_cas : Nat
  result : SubdocResult
  out_doc : Option OutDoc
  deriving Repr, DecidableEq

/-- The context constructed on fetch: `SubdocCmdContext(Connection*)`
initializes `in_doc = {NULL, 0}`, `in_cas = 0`, `out_doc = NULL`. -/
def SubdocCmdContext.fresh : SubdocCmdContext :=
  { in_doc := none, in_cas := 0, result := { newdoc := [], matchloc := [] }, out_doc := none }

/-- The destructor `~SubdocCmdContext` (subdocument_context.h lines
53-58): the items it releases back to the engine — exactly the owned
output item when one was allocated. -/
def SubdocCmdContext.dtorReleases (ctx : SubdocCmdContext) : List Nat :=
  match ctx.out_doc with
  | some od => [od.id]
  | none => []

/-- Connection state used by the executor: the fetched item slot
`c->item`, the command context, the response CAS (`c->setCAS`), and the
number of engine items currently checked out (fetched or allocated and
not yet released). -/
structure Conn where
  item : Option Nat
  ctx : Option SubdocCmdContext
  cas : Nat
  checkedOut : Nat
  deriving Repr, DecidableEq

/-- A recorded `bucket_engine->allocate` call. -/
structure AllocCall where
  len : Nat
  datatype : Nat
  deriving Repr, DecidableEq

inductive StoreOp
  | replace
  | add
  | set
  deriving Repr, DecidableEq

/-- A recorded `bucket_engine->store` call. -/
structure StoreCall where
  doc : OutDoc
  operation : StoreOp
  deriving Repr, DecidableEq

/-- Executor state: the connection plus the trace of engine calls made
(allocations, stores, releases). -/
structure ExecState where
  conn : Conn
  allocs : List AllocCall
  stores : List StoreCall
  releases : List Nat
  deriving Repr, DecidableEq

/-- Items the state holds: the fetched item slot plus the context's
owned output item. -/
def ExecState.holds (st : ExecState) : Nat :=
  (match st.conn.item with | some _ => 1 | none => 0) +
    (match st.conn.ctx with
     | some ctx => match ctx.out_doc with | some _ => 1 | none => 0
     | none => 0)

/-- Release `c->item` back to the engine (subdocument.cc lines
165-169). -/
def releaseConnItem (st : ExecState) : ExecState :=
  match st.conn.item with
  | none => st
  | some it =>
    { st with
      conn := { st.conn with item := none, checkedOut := st.conn.checkedOut - 1 },
      releases := st.releases ++ [it] }

/-- The `c->resetCommandContext()` call: destroys the command context,
running `~SubdocCmdContext`, which releases the owned output item. -/
def resetCommandContext (st : ExecState) : ExecState :=
  match st.conn.ctx with
  | none => st
  | some ctx =>
    { st with
      conn :=
        { st.conn with ctx := none, checkedOut := st.conn.checkedOut - ctx.dtorReleases.length },
      releases := st.releases ++ ctx.dtorReleases }

/-! ## Executor phases -/

/-- Outcome of a fetch or operate phase: continue, suspend on
`EWOULDBLOCK`, close on `DISCONNECT`, or write an error packet and
stop. -/
inductive StepRes
  | next (st : ExecState)
  | suspend (st : ExecState)
  | close (st : ExecState)
  | err (s : Status) (st : ExecState)
  deriving Repr, DecidableEq

/-- Embedding of `subdoc_fetch` (subdocument.cc lines 333-370).  A
fresh invocation has `aiostat = ENGINE_SUCCESS`, so `ret` is the
engine's `get` result. -/
def subdoc_fetch (env : AttemptEnv) (st : ExecState) : StepRes :=
  match st.conn.item with
  | some _ => .next st
  | none =>
    match env.get with
    | .ok it =>
      -- assign c->item and create the SubdocCmdContext
      let c :=
        { st.conn with
          item := some it
          ctx := some SubdocCmdContext.fresh
          checkedOut := st.conn.checkedOut + 1 }
      .next { st with conn := c }
    | .err .ewouldblock => .suspend st
    | .err .disconnect => .close st
    | .err e => .err (engine_error_2_protocol_error e) st

/-- Embedding of `subdoc_operate` (subdocument.cc lines 376-473): the
document is materialized and the Subdoc library operation executed; the
`cb_assert(context != NULL)` is modelled as an internal error on the
unreachable missing-context branch. -/
def subdoc_operate (env : AttemptEnv) (in_cas : Nat) (st : ExecState) : StepRes :=
  match st.conn.ctx, st.conn.item with
  | some ctx, some it =>
    match ctx.in_doc with
    | some _ => .next st
    | none =>
      let mr := get_document_for_searching env it in_cas
      if mr.status = .success then
        match env.opResult with
        | .success =>
          let ctx2 :=
            { ctx with
              in_doc := mr.doc
              in_cas := mr.casOut.getD 0
              result := { newdoc := env.opNewdoc, matchloc := env.opMatch } }
          .next { st with conn := { st.conn with ctx := some ctx2 } }
        | e => .err (subdoc_error_map e) st
      else
        .err mr.status st
  | _, _ => .err .einternal st

/-- Result of `subdoc_update`: the engine code handed back to the
executor, the updated state, any error packet written inside the
function, and the suspension/closing flags it set. -/
structure UpdateOut where
  ret : EngineCode
  st : ExecState
  wrote : Option Status
  ewouldblock : Bool
  closing : Bool
  deriving Repr, DecidableEq

/-- In-place byte copy: one `memcpy(write_ptr, loc.at, loc.length)`
into offset `off` of the buffer. -/
def writeBytesAt (buf : List Nat) (off : Nat) (src : List Nat) : List Nat :=
  buf.take off ++ src ++ buf.drop (off + src.length)

/-- The fragment-copy loop of `subdoc_update` (lines 543-548):
successive `memcpy`s of the `newdoc` fragments at an advancing write
pointer. -/
def copyFragments (buf : List Nat) (off : Nat) : List (List Nat) → List Nat
  | [] => buf
  | frag :: rest => copyFragments (writeBytesAt buf off frag) (off + frag.length) rest

/-- The store step shared by both entries into `subdoc_update` (lines
551-579): the engine `store` call is made with operation REPLACE and
its result switched on. -/
def subdoc_store_step (env : AttemptEnv) (od : OutDoc) (st : ExecState) : UpdateOut :=
  let st' := { st with stores := st.stores ++ [{ doc := od, operation := .replace }] }
  match env.store with
  | .ok new_cas =>
    { ret := .success, st := { st' with conn := { st'.conn with cas := new_cas } },
      wrote := none, ewouldblock := false, closing := false }
  | .err .key_eexists =>
    { ret := .key_eexists, st := st', wrote := none, ewouldblock := false, closing := false }
  | .err .ewouldblock =>
    { ret := .ewouldblock, st := st', wrote := none, ewouldblock := true, closing := false }
  | .err .disconnect =>
    { ret := .disconnect, st := st', wrote := none, ewouldblock := false, closing := true }
  | .err e =>
    { ret := e, st := st', wrote := some (engine_error_2_protocol_error e),
      ewouldblock := false, closing := false }

/-- Embedding of `subdoc_update<CMD>` (subdocument.cc lines 479-580). -/
def subdoc_update (env : AttemptEnv) (t : CmdTraits) (st : ExecState) : UpdateOut :=
  match st.conn.ctx with
  | none =>
    -- cb_assert(context != NULL)
    { ret := .failed, st := st, wrote := some .einternal, ewouldblock := false,
      closing := false }
  | some ctx =>
    if t.is_mutator = false then
      -- no update required; set the CAS used for the response
      { ret := .success,
        st := { st with conn := { st.conn with cas := ctx.in_cas } },
        wrote := none, ewouldblock := false, closing := false }
    else
      -- new_doc_len = sum of the newdoc fragment lengths
      let new_doc_len := (ctx.result.newdoc.map List.length).sum
      match ctx.out_doc with
      | some od => subdoc_store_step env od st
      | none =>
        match env.allocate with
        | .err .ewouldblock =>
          { ret := .ewouldblock, st := st, wrote := none, ewouldblock := true,
            closing := false }
        | .err .disconnect =>
          { ret := .disconnect, st := st, wrote := none, ewouldblock := false,
            closing := true }
        | .err e =>
          { ret := e, st := st, wrote := some (engine_error_2_protocol_error e),
            ewouldblock := false, closing := false }
        | .ok newid =>
          -- allocate(key, new_doc_len, datatype JSON); save in context;
          -- item_set_cas(new_doc, context->in_cas)
          let od0 : OutDoc :=
            { id := newid, len := new_doc_len, datatype := PROTOCOL_BINARY_DATATYPE_JSON,
              cas := ctx.in_cas, buffer := List.replicate new_doc_len 0 }
          let c1 :=
            { st.conn with
              ctx := some { ctx with out_doc := some od0 }
              checkedOut := st.conn.checkedOut + 1 }
          let st1 : ExecState :=
            { st with
              conn := c1
              allocs := st.allocs ++
                [{ len := new_doc_len, datatype := PROTOCOL_BINARY_DATATYPE_JSON }] }
          match env.infoOf newid with
          | none =>
            -- get_item_info failed on the new document
            { ret := .failed, st := st1, wrote := some .einternal, ewouldblock := false,
              closing := false }
          | some _ =>
            -- copy the newdoc fragments into the item and store it
            let od := { od0 with buffer := copyFragments od0.buffer 0 ctx.result.newdoc }
            let st2 : ExecState :=
              { st1 with
                conn := { st1.conn with ctx := some { ctx with out_doc := some od } } }
            subdoc_store_step env od st2

/-- Embedding of `subdoc_response<CMD>` (subdocument.cc lines 583-610):
the 24-byte response header built by `add_bin_header` with extras
length 0, key length 0 and datatype RAW_BYTES, its CAS field then
overwritten with `htonll(c->getCAS())`, plus the value iovec appended
iff the traits carry a response value. -/
def mkResponseHeader (opcode keylen extlen datatype status bodylen opq cas : Nat) :
    List Nat :=
  [PROTOCOL_BINARY_RES, opcode] ++ u16BE keylen ++ [extlen, datatype] ++ u16BE status ++
    u32BE bodylen ++ u32BE opq ++ u64BE cas

def subdoc_response (t : CmdTraits) (st : ExecState) : List Nat × List Nat :=
  let matchloc :=
    match st.conn.ctx with
    | some ctx => ctx.result.matchloc
    | none => []
  let vallen := if t.response_has_value then matchloc.length else 0
  let hdr0 := mkResponseHeader 0 0 0 PROTOCOL_BINARY_RAW_BYTES 0 vallen 0 0
  let hdr := hdr0.take 16 ++ u64BE st.conn.cas
  (hdr, if t.response_has_value then matchloc else [])

/-! ## The executor loop (`subdoc_executor`) -/

/-- How a finished sub-document command ended. -/
inductive ExecOutcome
  | suspended
  | closed
  | errorResponse (s : Status)
  | responded (hdr : List Nat) (value : List Nat)
  deriving Repr, DecidableEq

/-- Outcome of one iteration of the fetch/operate/update do-while body:
either the command is finished (`done`), or `KEY_EEXISTS` under
auto-retry asks for another iteration (`retry`). -/
inductive AttemptOut
  | done (o : ExecOutcome) (st : ExecState)
  | retry (st : ExecState)
  deriving Repr, DecidableEq

/-- One iteration of the `do { ... } while` body of `subdoc_executor`
(subdocument.cc lines 142-193): fetch, operate, update, and either the
retry decision on `KEY_EEXISTS` or the response. -/
def subdoc_attempt (env : AttemptEnv) (t : CmdTraits) (cas : Nat) (st : ExecState) :
    AttemptOut :=
  match subdoc_fetch env st with
  | .suspend st' => .done .suspended st'
  | .close st' => .done .closed st'
  | .err s st' => .done (.errorResponse s) st'
  | .next st1 =>
    match subdoc_operate env cas st1 with
    | .suspend st' => .done .suspended st'
    | .close st' => .done .closed st'
    | .err s st' => .done (.errorResponse s) st'
    | .next st2 =>
      let u := subdoc_update env t st2
      if u.ret = .key_eexists then
        if cas = 0 then
          -- auto-retry: release the fetched item, reset the command
          -- context (releasing out_doc), and loop
          .retry (resetCommandContext (releaseConnItem u.st))
        else
          -- no auto-retry: return the status to the client
          .done (.errorResponse (engine_error_2_protocol_error .key_eexists)) u.st
      else if u.ret = .success then
        -- stats updates (cmd_set / get hits, topkeys) omitted, then respond
        let r := subdoc_response t u.st
        .done (.responded r.1 r.2) u.st
      else if u.ewouldblock then .done .suspended u.st
      else if u.closing then .done .closed u.st
      else .done (.errorResponse (u.wrote.getD .einternal)) u.st

def MAXIMUM_ATTEMPTS : Nat := 100

structure ExecResult where
  outcome : ExecOutcome
  attempts : Nat
  st : ExecState
  deriving Repr, DecidableEq

/-- The do-while loop.  `fuel` is `MAXIMUM_ATTEMPTS - 1 - attempts`:
the loop condition `auto_retry && attempts < MAXIMUM_ATTEMPTS`
(evaluated after the in-body increment) is `fuel > 0`, and exhaustion
responds TMPFAIL. -/
def subdoc_executor_loop (envs : Nat → AttemptEnv) (t : CmdTraits) (cas : Nat) :
    Nat → Nat → ExecState → ExecResult
  | attempts, fuel, st =>
    match subdoc_attempt (envs attempts) t cas st with
    | .done o st' => { outcome := o, attempts := attempts + 1, st := st' }
    | .retry st' =>
      match fuel with
      | 0 =>
        { outcome := .errorResponse (engine_error_2_protocol_error .tmpfail),
          attempts := attempts + 1, st := st' }
      | fuel' + 1 => subdoc_executor_loop envs t cas (attempts + 1) fuel' st'

/-- Fresh connection state at the entry of `subdoc_executor`. -/
def initExecState : ExecState :=
  { conn := { item := none, ctx := none, cas := 0, checkedOut := 0 },
    allocs := [], stores := [], releases := [] }

/-- Embedding of `subdoc_executor<CMD>` for a fresh invocation
(`aiostat = ENGINE_SUCCESS`): `cas` is the client-supplied CAS from the
request header; auto-retry is enabled exactly when it is 0. -/
def subdoc_executor (envs : Nat → AttemptEnv) (t : CmdTraits) (cas : Nat) : ExecResult :=
  subdoc_executor_loop envs t cas 0 (MAXIMUM_ATTEMPTS - 1) initExecState

/-! ## Theorems about the update phase -/

theorem writeBytesAt_length (buf : List Nat) (off : Nat) (src : List Nat)
    (h : off + src.length ≤ buf.length) :
    (writeBytesAt buf off src).length = buf.length := by
  simp [writeBytesAt]
  omega

/-- Copying the fragments in order at an advancing write pointer into a
buffer of exactly the right size materializes their concatenation. -/
theorem copyFragments_flatten :
    ∀ (frags : List (List Nat)) (buf : List Nat) (off : Nat),
      buf.length = off + (frags.map List.length).sum →
      copyFragments buf off frags = buf.take off ++ frags.flatten := by
  intro frags
  induction frags with
  | nil =>
    intro buf off hlen
    simp only [List.map_nil, List.sum_nil, Nat.add_zero] at hlen
    simp [copyFragments, ← hlen]
  | cons f rest ih =>
    intro buf off hlen
    simp only [List.map_cons, List.sum_cons] at hlen
    have hfits : off + f.length ≤ buf.length := by omega
    have hwlen : (writeBytesAt buf off f).length = buf.length :=
      writeBytesAt_length buf off f hfits
    rw [copyFragments, ih (writeBytesAt buf off f) (off + f.length) (by omega)]
    have htakeoff : (buf.take off).length = off := by
      rw [List.length_take]
      omega
    have hA : (writeBytesAt buf off f).take (off + f.length) = buf.take off ++ f := by
      have hlenA : (buf.take off ++ f).length = off + f.length := by
        rw [List.length_append, htakeoff]
      rw [writeBytesAt, ← hlenA, List.take_left]
    rw [hA, List.flatten_cons, List.append_assoc]

/-- C2: on the mutator path with no item yet allocated, `subdoc_update`
allocates a new item whose length is the sum of the `newdoc` fragment
lengths and whose datatype is JSON, sets its CAS to the input CAS
recorded at fetch, fills its buffer with the in-order concatenation of
the `newdoc` fragments, and stores exactly that item with operation
REPLACE. -/
theorem subdoc_update_mutator (env : AttemptEnv) (t : CmdTraits) (st : ExecState)
    (ctx : SubdocCmdContext) (nid : Nat) (ninfo : ItemInfo)
    (hctx : st.conn.ctx = some ctx) (hout : ctx.out_doc = none)
    (hmut : t.is_mutator = true)
    (halloc : env.allocate = .ok nid) (hninfo : env.infoOf nid = some ninfo) :
    (subdoc_update env t st).st.allocs =
        st.allocs ++
          [{ len := (ctx.result.newdoc.map List.length).sum,
             datatype := PROTOCOL_BINARY_DATATYPE_JSON }] ∧
      (subdoc_update env t st).st.stores =
        st.stores ++
          [{ doc := { id := nid,
                      len := (ctx.result.newdoc.map List.length).sum,
                      datatype := PROTOCOL_BINARY_DATATYPE_JSON,
                      cas := ctx.in_cas,
                      buffer := ctx.result.newdoc.flatten },
             operation := .replace }] := by
  have hbuf : copyFragments
      (List.replicate ((ctx.result.newdoc.map List.length).sum) 0) 0 ctx.result.newdoc =
      ctx.result.newdoc.flatten := by
    rw [copyFragments_flatten ctx.result.newdoc _ 0 (by simp)]
    simp
  rw [subdoc_update, hctx]
  simp only [hmut, Bool.true_eq_false, if_neg, ite_false, hout, halloc, hninfo]
  rw [subdoc_store_step]
  simp only [hbuf]
  cases henv : env.store with
  | ok new_cas => exact ⟨rfl, rfl⟩
  | err e =>
    cases e <;> exact ⟨rfl, rfl⟩

/-! ## Theorems about the materializer -/

theorem mat_cas_mismatch (env : AttemptEnv) (it in_cas : Nat) (info : ItemInfo)
    (hinfo : env.infoOf it = some info) (hseg : info.segments.length = 1)
    (h0 : in_cas ≠ 0) (hne : in_cas ≠ info.cas) :
    get_document_for_searching env it in_cas =
      { status := .key_eexists, doc := none, casOut := none, grown := [] } := by
  simp only [get_document_for_searching, hinfo]
  rw [if_neg (by omega), if_pos ⟨h0, hne⟩]

theorem mat_casOut (env : AttemptEnv) (it in_cas : Nat) (info : ItemInfo)
    (hinfo : env.infoOf it = some info) (hseg : info.segments.length = 1)
    (hok : in_cas = 0 ∨ in_cas = info.cas) :
    (get_document_for_searching env it in_cas).casOut = some info.cas := by
  simp only [get_document_for_searching, hinfo]
  rw [if_neg (by omega), if_neg (by tauto)]
  split_ifs with h1 h2 h3
  · rfl
  · cases env.snappyLen (info.segments.headD []) with
    | none => rfl
    | some ulen =>
      simp only
      split_ifs with hg
      · rfl
      · cases env.snappyUncompress (info.segments.headD []) with
        | none => rfl
        | some udoc => rfl
  · rfl
  · rfl

/-- C6: when the item's info is available in a single iovec segment, a
non-zero client CAS differing from the item's CAS makes materialization
fail `KEY_EEXISTS` with the dynamic buffer untouched and no document
produced; otherwise the observed CAS is reported, and on a successful
operate phase it is recorded into the command context (`in_cas`) for
the rest of the command. -/
theorem subdoc_cas_check_before_decompression :
    (∀ (env : AttemptEnv) (it in_cas : Nat) (info : ItemInfo),
        env.infoOf it = some info → info.segments.length = 1 →
        in_cas ≠ 0 → in_cas ≠ info.cas →
        (get_document_for_searching env it in_cas).status = .key_eexists ∧
        (get_document_for_searching env it in_cas).grown = [] ∧
        (get_document_for_searching env it in_cas).doc = none) ∧
    (∀ (env : AttemptEnv) (it in_cas : Nat) (info : ItemInfo),
        env.infoOf it = some info → info.segments.length = 1 →
        (in_cas = 0 ∨ in_cas = info.cas) →
        (get_document_for_searching env it in_cas).casOut = some info.cas) ∧
    (∀ (env : AttemptEnv) (cas : Nat) (st : ExecState) (ctx : SubdocCmdContext)
        (it : Nat) (info : ItemInfo) (st' : ExecState),
        st.conn.ctx = some ctx → st.conn.item = some it → ctx.in_doc = none →
        env.infoOf it = some info → info.segments.length = 1 →
        (cas = 0 ∨ cas = info.cas) →
        subdoc_operate env cas st = .next st' →
        ∃ ctx', st'.conn.ctx = some ctx' ∧ ctx'.in_cas = info.cas) := by
  refine ⟨?_, ?_, ?_⟩
  · intro env it in_cas info hinfo hseg h0 hne
    rw [mat_cas_mismatch env it in_cas info hinfo hseg h0 hne]
    exact ⟨rfl, rfl, rfl⟩
  · intro env it in_cas info hinfo hseg hok
    exact mat_casOut env it in_cas info hinfo hseg hok
  · intro env cas st ctx it info st' hctx hit hdoc hinfo hseg hok hnext
    rw [subdoc_operate, hctx, hit] at hnext
    simp only [hdoc] at hnext
    split_ifs at hnext with hs
    · split at hnext
      · simp only [StepRes.next.injEq] at hnext
        rw [← hnext]
        refine ⟨_, rfl, ?_⟩
        simp only [mat_casOut env it cas info hinfo hseg hok, Option.getD_some]
      · exact absurd hnext (by simp)

/-! ### Concrete fixtures for witnesses -/

/-- A JSON item with CAS 42 and a single one-segment value. -/
def infoJsonW : ItemInfo := { cas := 42, datatype := 1, segments := [[1, 2, 3]] }

/-- An environment where every engine and library call succeeds. -/
def envJsonW : AttemptEnv :=
  { get := .ok 7, infoOf := fun _ => some infoJsonW,
    snappyLen := fun _ => none, snappyUncompress := fun _ => none, canGrow := fun _ => true,
    opResult := .success, opNewdoc := [[9], [8, 7]], opMatch := [50],
    allocate := .ok 99, store := .ok 43 }

/-- The same environment except that every `store` loses the CAS race. -/
def envRaceW : AttemptEnv := { envJsonW with store := .err .key_eexists }

/-- A mutator-path context: document fetched with CAS 42, the Subdoc
library produced two new-document fragments, no output item yet. -/
def ctxMutW : SubdocCmdContext :=
  { in_doc := some [1, 2, 3], in_cas := 42,
    result := { newdoc := [[9], [8, 7]], matchloc := [] }, out_doc := none }

def stMutW : ExecState :=
  { conn := { item := some 7, ctx := some ctxMutW, cas := 0, checkedOut := 1 },
    allocs := [], stores := [], releases := [] }

/-- Witness for `subdoc_update_mutator`: fragments `[9]` and `[8, 7]`
yield one allocation of length 3 with datatype JSON and one REPLACE
store of the item with CAS 42 and buffer `[9, 8, 7]`. -/
theorem subdoc_update_mutator_witness :
    (subdoc_update envJsonW traitsDictAdd stMutW).st.allocs =
        [{ len := 3, datatype := 1 }] ∧
      (subdoc_update envJsonW traitsDictAdd stMutW).st.stores =
        [{ doc := { id := 99, len := 3, datatype := 1, cas := 42, buffer := [9, 8, 7] },
           operation := .replace }] := by
  have h := subdoc_update_mutator envJsonW traitsDictAdd stMutW ctxMutW 99 infoJsonW
    rfl rfl rfl rfl rfl
  simpa [stMutW, ctxMutW, PROTOCOL_BINARY_DATATYPE_JSON] using h

/-- Witness for `subdoc_cas_check_before_decompression`: client CAS 41
against an item with CAS 42 fails `KEY_EEXISTS`. -/
theorem subdoc_cas_check_before_decompression_witness :
    (get_document_for_searching envJsonW 7 41).status = .key_eexists :=
  (subdoc_cas_check_before_decompression.1 envJsonW 7 41 infoJsonW rfl (by decide)
    (by decide) (by decide)).1

/-- C7: materialization dispatches on the fetched item's datatype.  A
multi-segment value fails `EINTERNAL` unconditionally.  With a single
segment and a passing CAS check: datatype JSON yields the segment
itself, zero copy; COMPRESSED_JSON fails `EINTERNAL` when the
uncompressed length cannot be determined or decompression fails,
`E2BIG` when the dynamic buffer cannot be grown, and otherwise yields
the decompressed bytes in the grown buffer; RAW or COMPRESSED fails
`SUBDOC_DOC_NOTJSON`; any other datatype byte fails `EINTERNAL`. -/
theorem get_document_datatype_cases :
    (∀ (env : AttemptEnv) (it in_cas : Nat) (info : ItemInfo),
        env.infoOf it = some info → info.segments.length ≠ 1 →
        (get_document_for_searching env it in_cas).status = .einternal) ∧
    (∀ (env : AttemptEnv) (it in_cas : Nat) (info : ItemInfo) (seg : List Nat),
        env.infoOf it = some info → info.segments = [seg] →
        (in_cas = 0 ∨ in_cas = info.cas) →
        ((info.datatype = PROTOCOL_BINARY_DATATYPE_JSON →
            get_document_for_searching env it in_cas =
              { status := .success, doc := some seg, casOut := some info.cas,
                grown := [] }) ∧
         (info.datatype = PROTOCOL_BINARY_DATATYPE_COMPRESSED_JSON →
            (env.snappyLen seg = none →
              (get_document_for_searching env it in_cas).status = .einternal ∧
              (get_document_for_searching env it in_cas).grown = []) ∧
            (∀ ulen, env.snappyLen seg = some ulen →
              (env.canGrow ulen = false →
                (get_document_for_searching env it in_cas).status = .e2big ∧
                (get_document_for_searching env it in_cas).grown = []) ∧
              (env.canGrow ulen = true →
                (env.snappyUncompress seg = none →
                  (get_document_for_searching env it in_cas).status = .einternal) ∧
                (∀ udoc, env.snappyUncompress seg = some udoc →
                  get_document_for_searching env it in_cas =
                    { status := .success, doc := some udoc, casOut := some info.cas,
                      grown := [ulen] })))) ∧
         (info.datatype = PROTOCOL_BINARY_RAW_BYTES ∨
             info.datatype = PROTOCOL_BINARY_DATATYPE_COMPRESSED →
            (get_document_for_searching env it in_cas).status = .subdoc_doc_notjson) ∧
         (info.datatype ≠ PROTOCOL_BINARY_DATATYPE_JSON →
          info.datatype ≠ PROTOCOL_BINARY_DATATYPE_COMPRESSED_JSON →
          info.datatype ≠ PROTOCOL_BINARY_RAW_BYTES →
          info.datatype ≠ PROTOCOL_BINARY_DATATYPE_COMPRESSED →
            (get_document_for_searching env it in_cas).status = .einternal))) := by
  constructor
  · intro env it in_cas info hinfo hseg
    simp only [get_document_for_searching, hinfo]
    rw [if_pos hseg]
  · intro env it in_cas info seg hinfo hseg hok
    have hg1 : ¬info.segments.length ≠ 1 := by rw [hseg]; simp
    have hg2 : ¬(in_cas ≠ 0 ∧ in_cas ≠ info.cas) := by tauto
    have hhead : info.segments.headD [] = seg := by rw [hseg]; rfl
    refine ⟨?_, ?_, ?_, ?_⟩
    · intro hdt
      simp only [get_document_for_searching, hinfo, hhead]
      rw [if_neg hg1, if_neg hg2, if_pos hdt]
    · intro hdt
      have hdt1 : ¬info.datatype = PROTOCOL_BINARY_DATATYPE_JSON := by
        rw [hdt]; decide
      constructor
      · intro hsl
        simp only [get_document_for_searching, hinfo, hhead]
        rw [if_neg hg1, if_neg hg2, if_neg hdt1, if_pos hdt, hsl]
        exact ⟨rfl, rfl⟩
      · intro ulen hsl
        constructor
        · intro hgrow
          simp only [get_document_for_searching, hinfo, hhead]
          rw [if_neg hg1, if_neg hg2, if_neg hdt1, if_pos hdt, hsl]
          simp only [hgrow, if_pos]
          exact ⟨trivial, trivial⟩
        · intro hgrow
          constructor
          · intro hun
            simp only [get_document_for_searching, hinfo, hhead]
            rw [if_neg hg1, if_neg hg2, if_neg hdt1, if_pos hdt, hsl]
            simp only [hgrow, hun]
            rfl
          · intro udoc hun
            simp only [get_document_for_searching, hinfo, hhead]
            rw [if_neg hg1, if_neg hg2, if_neg hdt1, if_pos hdt, hsl]
            simp only [hgrow, hun]
            rfl
    · intro hdt
      have hdt1 : ¬info.datatype = PROTOCOL_BINARY_DATATYPE_JSON := by
        rcases hdt with h | h <;> rw [h] <;> decide
      have hdt3 : ¬info.datatype = PROTOCOL_BINARY_DATATYPE_COMPRESSED_JSON := by
        rcases hdt with h | h <;> rw [h] <;> decide
      simp only [get_document_for_searching, hinfo, hhead]
      rw [if_neg hg1, if_neg hg2, if_neg hdt1, if_neg hdt3, if_pos hdt]
    · intro h1 h3 h0 h2
      simp only [get_document_for_searching, hinfo, hhead]
      rw [if_neg hg1, if_neg hg2, if_neg h1, if_neg h3, if_neg (by tauto)]

/-- Witness for `get_document_datatype_cases`: the JSON fixture
materializes zero-copy with its own segment and CAS. -/
theorem get_document_datatype_cases_witness :
    get_document_for_searching envJsonW 7 0 =
      { status := .success, doc := some [1, 2, 3], casOut := some 42, grown := [] } :=
  ((get_document_datatype_cases.2 envJsonW 7 0 infoJsonW [1, 2, 3] rfl rfl
    (Or.inl rfl)).1) rfl

/-! ## Theorems about the executor loop -/

theorem mat_json (env : AttemptEnv) (it in_cas : Nat) (info : ItemInfo) (seg : List Nat)
    (hinfo : env.infoOf it = some info) (hsegs : info.segments = [seg])
    (hdt : info.datatype = PROTOCOL_BINARY_DATATYPE_JSON)
    (hok : in_cas = 0 ∨ in_cas = info.cas) :
    get_document_for_searching env it in_cas =
      { status := .success, doc := some seg, casOut := some info.cas, grown := [] } := by
  have hg1 : ¬info.segments.length ≠ 1 := by rw [hsegs]; simp
  have hhead : info.segments.headD [] = seg := by rw [hsegs]; rfl
  simp only [get_document_for_searching, hinfo, hhead]
  rw [if_neg hg1, if_neg (by tauto), if_pos hdt]

/-- An attempt environment in which the fetch, materialization,
operation and allocation phases all succeed for a mutator. -/
def AttemptEnv.GoodMutatorRun (env : AttemptEnv) : Prop :=
  ∃ it info nid ninfo seg,
    env.get = .ok it ∧ env.infoOf it = some info ∧ info.segments = [seg] ∧
      info.datatype = PROTOCOL_BINARY_DATATYPE_JSON ∧ env.opResult = .success ∧
      env.allocate = .ok nid ∧ env.infoOf nid = some ninfo

/-- After releasing `c->item` and resetting the command context, the
connection holds neither a fetched item nor a context. -/
theorem reset_release_clears (st : ExecState) :
    (resetCommandContext (releaseConnItem st)).conn.item = none ∧
      (resetCommandContext (releaseConnItem st)).conn.ctx = none := by
  rcases hsi : st.conn.item with _ | it <;> rcases hsc : st.conn.ctx with _ | ctx <;>
    simp [releaseConnItem, resetCommandContext, hsi, hsc]

/-- Every `retry` result of an attempt went through the release/reset
pair, so the next iteration starts with no item and no context. -/
theorem subdoc_attempt_retry_shape (env : AttemptEnv) (t : CmdTraits) (cas : Nat)
    (st st' : ExecState) (h : subdoc_attempt env t cas st = .retry st') :
    st'.conn.item = none ∧ st'.conn.ctx = none := by
  unfold subdoc_attempt at h
  cases hf : subdoc_fetch env st with
  | suspend s => simp only [hf] at h; exact absurd h (by simp)
  | close s => simp only [hf] at h; exact absurd h (by simp)
  | err s1 s2 => simp only [hf] at h; exact absurd h (by simp)
  | next st1 =>
    simp only [hf] at h
    cases ho : subdoc_operate env cas st1 with
    | suspend s => simp only [ho] at h; exact absurd h (by simp)
    | close s => simp only [ho] at h; exact absurd h (by simp)
    | err s1 s2 => simp only [ho] at h; exact absurd h (by simp)
    | next st2 =>
      simp only [ho] at h
      by_cases h1 : (subdoc_update env t st2).ret = .key_eexists
      · rw [if_pos h1] at h
        by_cases h2 : cas = 0
        · rw [if_pos h2] at h
          simp only [AttemptOut.retry.injEq] at h
          rw [← h]
          exact reset_release_clears _
        · rw [if_neg h2] at h
          exact absurd h (by simp)
      · rw [if_neg h1] at h
        split_ifs at h

theorem subdoc_attempt_race_retry (env : AttemptEnv) (t : CmdTraits)
    (hmut : t.is_mutator = true) (hrun : env.GoodMutatorRun)
    (hstore : env.store = .err .key_eexists) (st : ExecState)
    (hit : st.conn.item = none) ( _hctx : st.conn.ctx = none) :
    ∃ st', subdoc_attempt env t 0 st = .retry st' := by
  obtain ⟨it, info, nid, ninfo, seg, hget, hinfo, hsegs, hdt, hop, halloc, hninfo⟩ := hrun
  have hmat := mat_json env it 0 info seg hinfo hsegs hdt (Or.inl rfl)
  simp only [subdoc_attempt, subdoc_fetch, hit, hget, subdoc_operate,
    SubdocCmdContext.fresh, hmat, hop, subdoc_update, hmut, halloc, hninfo,
    subdoc_store_step, hstore, releaseConnItem, resetCommandContext,
    SubdocCmdContext.dtorReleases]
  simp

theorem subdoc_attempt_eexists_surface (env : AttemptEnv) (t : CmdTraits) (cas : Nat)
    (it _info_cas nid : Nat) (info : ItemInfo) (ninfo : ItemInfo) (seg : List Nat)
    (hmut : t.is_mutator = true) (hcas : cas ≠ 0)
    (hget : env.get = .ok it) (hinfo : env.infoOf it = some info)
    (hsegs : info.segments = [seg]) (hdt : info.datatype = PROTOCOL_BINARY_DATATYPE_JSON)
    (hmatch : cas = info.cas) (hop : env.opResult = .success)
    (halloc : env.allocate = .ok nid) (hninfo : env.infoOf nid = some ninfo)
    (hstore : env.store = .err .key_eexists) (st : ExecState)
    (hit : st.conn.item = none) ( _hctx : st.conn.ctx = none) :
    ∃ st', subdoc_attempt env t cas st =
      .done (.errorResponse (engine_error_2_protocol_error .key_eexists)) st' := by
  have hmat := mat_json env it cas info seg hinfo hsegs hdt (Or.inr hmatch)
  simp only [subdoc_attempt, subdoc_fetch, hit, hget, subdoc_operate,
    SubdocCmdContext.fresh, hmat, hop, subdoc_update, hmut, halloc, hninfo,
    subdoc_store_step, hstore]
  simp [hcas]

theorem subdoc_executor_loop_attempts_le (envs : Nat → AttemptEnv) (t : CmdTraits)
    (cas : Nat) :
    ∀ (fuel attempts : Nat) (st : ExecState),
      (subdoc_executor_loop envs t cas attempts fuel st).attempts ≤ attempts + fuel + 1 := by
  intro fuel
  induction fuel with
  | zero =>
    intro attempts st
    rw [subdoc_executor_loop]
    cases subdoc_attempt (envs attempts) t cas st <;> simp
  | succ f ih =>
    intro attempts st
    rw [subdoc_executor_loop]
    cases subdoc_attempt (envs attempts) t cas st with
    | done o st' => simp
    | retry st' =>
      simp only
      calc (subdoc_executor_loop envs t cas (attempts + 1) f st').attempts
          ≤ attempts + 1 + f + 1 := ih (attempts + 1) st'
        _ ≤ attempts + (f + 1) + 1 := by omega

theorem subdoc_executor_loop_race (envs : Nat → AttemptEnv) (t : CmdTraits)
    (hmut : t.is_mutator = true)
    (hgood : ∀ n, (envs n).GoodMutatorRun ∧ (envs n).store = .err .key_eexists) :
    ∀ (fuel attempts : Nat) (st : ExecState),
      st.conn.item = none → st.conn.ctx = none →
      (subdoc_executor_loop envs t 0 attempts fuel st).outcome =
          .errorResponse .etmpfail ∧
        (subdoc_executor_loop envs t 0 attempts fuel st).attempts =
          attempts + fuel + 1 := by
  intro fuel
  induction fuel with
  | zero =>
    intro attempts st hit hctx
    obtain ⟨st', hstep⟩ := subdoc_attempt_race_retry (envs attempts) t hmut
      (hgood attempts).1 (hgood attempts).2 st hit hctx
    rw [subdoc_executor_loop, hstep]
    exact ⟨rfl, rfl⟩
  | succ f ih =>
    intro attempts st hit hctx
    obtain ⟨st', hstep⟩ := subdoc_attempt_race_retry (envs attempts) t hmut
      (hgood attempts).1 (hgood attempts).2 st hit hctx
    obtain ⟨hit', hctx'⟩ := subdoc_attempt_retry_shape (envs attempts) t 0 st st' hstep
    rw [subdoc_executor_loop, hstep]
    simp only
    have := ih (attempts + 1) st' hit' hctx'
    refine ⟨this.1, ?_⟩
    rw [this.2]
    omega

/-- C1: the fetch/operate/update loop makes at most 100 attempts; with
client CAS 0 (auto-retry) and every attempt's store losing the CAS race
with `KEY_EEXISTS`, the command makes exactly 100 attempts and responds
`TMPFAIL`; with a non-zero client CAS a `KEY_EEXISTS` store result is
surfaced to the client on the first attempt, with no retry. -/
theorem subdoc_executor_retry_bound :
    (∀ (envs : Nat → AttemptEnv) (t : CmdTraits) (cas : Nat),
        (subdoc_executor envs t cas).attempts ≤ MAXIMUM_ATTEMPTS) ∧
    (∀ (envs : Nat → AttemptEnv) (t : CmdTraits), t.is_mutator = true →
        (∀ n, (envs n).GoodMutatorRun ∧ (envs n).store = .err .key_eexists) →
        (subdoc_executor envs t 0).outcome = .errorResponse .etmpfail ∧
        (subdoc_executor envs t 0).attempts = MAXIMUM_ATTEMPTS) ∧
    (∀ (envs : Nat → AttemptEnv) (t : CmdTraits) (cas it nid : Nat)
        (info ninfo : ItemInfo) (seg : List Nat),
        t.is_mutator = true → cas ≠ 0 →
        (envs 0).get = .ok it → (envs 0).infoOf it = some info →
        info.segments = [seg] → info.datatype = PROTOCOL_BINARY_DATATYPE_JSON →
        cas = info.cas → (envs 0).opResult = .success →
        (envs 0).allocate = .ok nid → (envs 0).infoOf nid = some ninfo →
        (envs 0).store = .err .key_eexists →
        (subdoc_executor envs t cas).outcome = .errorResponse .key_eexists ∧
        (subdoc_executor envs t cas).attempts = 1) := by
  refine ⟨?_, ?_, ?_⟩
  · intro envs t cas
    have h := subdoc_executor_loop_attempts_le envs t cas (MAXIMUM_ATTEMPTS - 1) 0
      initExecState
    rw [subdoc_executor]
    rw [MAXIMUM_ATTEMPTS] at h ⊢
    omega
  · intro envs t hmut hgood
    have h := subdoc_executor_loop_race envs t hmut hgood (MAXIMUM_ATTEMPTS - 1) 0
      initExecState rfl rfl
    rw [subdoc_executor]
    exact ⟨h.1, by rw [h.2]; decide⟩
  · intro envs t cas it nid info ninfo seg hmut hcas hget hinfo hsegs hdt hmatch hop
      halloc hninfo hstore
    obtain ⟨st', hstep⟩ := subdoc_attempt_eexists_surface (envs 0) t cas it 0 nid info
      ninfo seg hmut hcas hget hinfo hsegs hdt hmatch hop halloc hninfo hstore
      initExecState rfl rfl
    rw [subdoc_executor, subdoc_executor_loop, hstep]
    exact ⟨rfl, rfl⟩

/-- Witness for `subdoc_executor_retry_bound`: with the racing fixture
environment and client CAS 0, the executor responds TMPFAIL after
exactly 100 attempts. -/
theorem subdoc_executor_retry_bound_witness :
    (subdoc_executor (fun _ => envRaceW) traitsDictAdd 0).outcome =
        .errorResponse .etmpfail ∧
      (subdoc_executor (fun _ => envRaceW) traitsDictAdd 0).attempts = 100 :=
  subdoc_executor_retry_bound.2.1 (fun _ => envRaceW) traitsDictAdd rfl
    (fun _ => ⟨⟨7, infoJsonW, 99, infoJsonW, [1, 2, 3], rfl, rfl, rfl, rfl, rfl, rfl, rfl⟩,
      rfl⟩)

/-! ## Resource balance (no item stays checked out) -/

/-- The state carried by a `StepRes`. -/
def stepState : StepRes → ExecState
  | .next s => s
  | .suspend s => s
  | .close s => s
  | .err _ s => s

/-- The state carried by an `AttemptOut`. -/
def attemptState : AttemptOut → ExecState
  | .done _ s => s
  | .retry s => s

/-- Invariant of the executor: the engine checkout count equals the
items the connection holds (fetched item plus owned output item), and a
connection with no fetched item has no command context (the
`cb_assert` in `subdoc_fetch`). -/
def GoodState (st : ExecState) : Prop :=
  st.conn.checkedOut = st.holds ∧ (st.conn.item = none → st.conn.ctx = none)

theorem goodState_init : GoodState initExecState := by
  constructor <;> simp [initExecState, ExecState.holds]

theorem subdoc_fetch_balance (env : AttemptEnv) (st : ExecState) (h : GoodState st) :
    GoodState (stepState (subdoc_fetch env st)) := by
  obtain ⟨hbal, hinv⟩ := h
  rcases hi : st.conn.item with _ | it
  · have hc := hinv hi
    rcases hg : env.get with _ | e
    · constructor
      · simp [subdoc_fetch, hi, hg, stepState, ExecState.holds, SubdocCmdContext.fresh]
        simp [ExecState.holds, hi, hc] at hbal
        omega
      · simp [subdoc_fetch, hi, hg, stepState]
    · cases e <;>
        (constructor <;>
          simp [subdoc_fetch, hi, hg, stepState, ExecState.holds, hbal, hinv])
  · constructor <;> simp [subdoc_fetch, hi, stepState, ExecState.holds, hbal, hinv]

theorem subdoc_operate_balance (env : AttemptEnv) (cas : Nat) (st : ExecState)
    (h : GoodState st) :
    GoodState (stepState (subdoc_operate env cas st)) := by
  obtain ⟨hbal, hinv⟩ := h
  rcases hc : st.conn.ctx with _ | ctx <;> rcases hi : st.conn.item with _ | it <;>
    simp only [subdoc_operate, hc, hi, stepState]
  · exact ⟨hbal, hinv⟩
  · exact ⟨hbal, hinv⟩
  · exact ⟨hbal, hinv⟩
  · rcases hd : ctx.in_doc with _ | d <;> simp only [hd]
    · split_ifs with hs
      · rcases hop : env.opResult <;> simp only [stepState] <;>
          first
            | exact ⟨hbal, hinv⟩
            | (constructor
               · simp only [ExecState.holds, hi, hc] at hbal ⊢
                 simpa using hbal
               · intro habs
                 simp [hi] at habs)
      · exact ⟨hbal, hinv⟩
    · exact ⟨hbal, hinv⟩

theorem subdoc_store_step_balance (env : AttemptEnv) (od : OutDoc) (st : ExecState)
    (h : GoodState st) : GoodState (subdoc_store_step env od st).st := by
  obtain ⟨hbal, hinv⟩ := h
  rcases hg : env.store with _ | e
  · exact ⟨by simpa [subdoc_store_step, hg, ExecState.holds] using hbal,
      by simpa [subdoc_store_step, hg] using hinv⟩
  · cases e <;>
      exact ⟨by simpa [subdoc_store_step, hg, ExecState.holds] using hbal,
        by simpa [subdoc_store_step, hg] using hinv⟩

theorem subdoc_update_balance (env : AttemptEnv) (t : CmdTraits) (st : ExecState)
    (h : GoodState st) : GoodState (subdoc_update env t st).st := by
  obtain ⟨hbal, hinv⟩ := h
  rcases hc : st.conn.ctx with _ | ctx
  · simp only [subdoc_update, hc]
    exact ⟨hbal, hinv⟩
  · by_cases hm : t.is_mutator = false
    · rw [subdoc_update, hc]
      simp only [hm, if_pos]
      constructor
      · simpa [ExecState.holds] using hbal
      · simpa using hinv
    · rw [subdoc_update, hc]
      simp only [hm, ite_false]
      rcases ho : ctx.out_doc with _ | od
      · rcases ha : env.allocate with nid | e
        · simp only [ha]
          rcases hni : env.infoOf nid with _ | ninfo <;> simp only [hni]
          · constructor
            · simp only [ExecState.holds, hc, ho] at hbal ⊢
              simpa using hbal
            · intro habs
              rw [hinv habs] at hc
              cases hc
          · apply subdoc_store_step_balance
            constructor
            · simp only [ExecState.holds, hc, ho] at hbal ⊢
              simpa using hbal
            · intro habs
              rw [hinv habs] at hc
              cases hc
        · simp only [ha]
          cases e <;> exact ⟨hbal, hinv⟩
      · simp only [ho]
        exact subdoc_store_step_balance env od st ⟨hbal, hinv⟩

/-- Releasing the fetched item and then destroying the command context
returns every checked-out item when the state was balanced. -/
theorem finalize_checkedOut_zero (st : ExecState) (h : GoodState st) :
    (resetCommandContext (releaseConnItem st)).conn.checkedOut = 0 := by
  obtain ⟨hbal, hinv⟩ := h
  rcases hi : st.conn.item with _ | it <;> rcases hc : st.conn.ctx with _ | ctx
  · simp only [ExecState.holds, hi, hc] at hbal
    simp [releaseConnItem, resetCommandContext, hi, hc, hbal]
  · rw [hinv hi] at hc
    cases hc
  · simp only [ExecState.holds, hi, hc] at hbal
    simp [releaseConnItem, resetCommandContext, hi, hc]
    omega
  · rcases ho : ctx.out_doc with _ | od <;>
      simp only [ExecState.holds, hi, hc, ho] at hbal <;>
      simp [releaseConnItem, resetCommandContext, hi, hc, ho,
        SubdocCmdContext.dtorReleases] <;>
      omega

theorem reset_release_good (st : ExecState) (h : GoodState st) :
    GoodState (resetCommandContext (releaseConnItem st)) := by
  obtain ⟨h1, h2⟩ := reset_release_clears st
  constructor
  · rw [finalize_checkedOut_zero st h]
    simp [ExecState.holds, h1, h2]
  · intro _
    exact h2

theorem subdoc_attempt_balance (env : AttemptEnv) (t : CmdTraits) (cas : Nat)
    (st : ExecState) (h : GoodState st) :
    GoodState (attemptState (subdoc_attempt env t cas st)) := by
  have hf := subdoc_fetch_balance env st h
  unfold subdoc_attempt
  cases hfr : subdoc_fetch env st with
  | suspend s => rw [hfr] at hf; exact hf
  | close s => rw [hfr] at hf; exact hf
  | err s1 s2 => rw [hfr] at hf; exact hf
  | next st1 =>
    rw [hfr] at hf
    have ho := subdoc_operate_balance env cas st1 hf
    simp only
    cases hor : subdoc_operate env cas st1 with
    | suspend s => rw [hor] at ho; exact ho
    | close s => rw [hor] at ho; exact ho
    | err s1 s2 => rw [hor] at ho; exact ho
    | next st2 =>
      rw [hor] at ho
      have hu := subdoc_update_balance env t st2 ho
      simp only
      split_ifs with h1 h2 h3 h4 h5
      · exact reset_release_good _ hu
      all_goals exact hu

theorem subdoc_executor_loop_balance (envs : Nat → AttemptEnv) (t : CmdTraits)
    (cas : Nat) :
    ∀ (fuel attempts : Nat) (st : ExecState), GoodState st →
      GoodState (subdoc_executor_loop envs t cas attempts fuel st).st := by
  intro fuel
  induction fuel with
  | zero =>
    intro attempts st h
    have ha := subdoc_attempt_balance (envs attempts) t cas st h
    rw [subdoc_executor_loop]
    cases har : subdoc_attempt (envs attempts) t cas st with
    | done o s => rw [har] at ha; exact ha
    | retry s => rw [har] at ha; exact ha
  | succ f ih =>
    intro attempts st h
    have ha := subdoc_attempt_balance (envs attempts) t cas st h
    rw [subdoc_executor_loop]
    cases har : subdoc_attempt (envs attempts) t cas st with
    | done o s => rw [har] at ha; exact ha
    | retry s =>
      rw [har] at ha
      exact ih (attempts + 1) s ha

/-- C9: the command context destructor releases exactly the owned
output item; every auto-retry iteration releases the fetched item and
destroys the context before looping, so the next attempt starts with
neither held; and after any run of the executor, releasing the
connection's item slot and destroying the context (what the connection
teardown does) leaves zero items checked out of the engine. -/
theorem subdoc_no_item_leaked :
    (∀ (ctx : SubdocCmdContext) (od : OutDoc),
        (ctx.out_doc = some od → ctx.dtorReleases = [od.id]) ∧
        (ctx.out_doc = none → ctx.dtorReleases = [])) ∧
    (∀ (env : AttemptEnv) (t : CmdTraits) (cas : Nat) (st st' : ExecState),
        subdoc_attempt env t cas st = .retry st' →
        st'.conn.item = none ∧ st'.conn.ctx = none) ∧
    (∀ (envs : Nat → AttemptEnv) (t : CmdTraits) (cas : Nat),
        (resetCommandContext
          (releaseConnItem (subdoc_executor envs t cas).st)).conn.checkedOut = 0) := by
  refine ⟨?_, ?_, ?_⟩
  · intro ctx od
    constructor
    · intro hod
      simp [SubdocCmdContext.dtorReleases, hod]
    · intro hod
      simp [SubdocCmdContext.dtorReleases, hod]
  · intro env t cas st st' h
    exact subdoc_attempt_retry_shape env t cas st st' h
  · intro envs t cas
    apply finalize_checkedOut_zero
    exact subdoc_executor_loop_balance envs t cas (MAXIMUM_ATTEMPTS - 1) 0 initExecState
      goodState_init

/-- Witness for `subdoc_no_item_leaked`: a context owning output item 5
releases exactly item 5 in its destructor. -/
theorem subdoc_no_item_leaked_witness :
    SubdocCmdContext.dtorReleases
        { in_doc := none, in_cas := 0, result := { newdoc := [], matchloc := [] },
          out_doc := some { id := 5, len := 0, datatype := 1, cas := 0, buffer := [] } } =
      [5] :=
  (subdoc_no_item_leaked.1
    { in_doc := none, in_cas := 0, result := { newdoc := [], matchloc := [] },
      out_doc := some { id := 5, len := 0, datatype := 1, cas := 0, buffer := [] } }
    { id := 5, len := 0, datatype := 1, cas := 0, buffer := [] }).1 rfl

/-! ## Response format and the lookup path -/

/-- The response header's CAS field (bytes 16-23) is the connection CAS
in network byte order. -/
theorem subdoc_response_hdr_cas (t : CmdTraits) (st : ExecState) :
    (subdoc_response t st).1.drop 16 = u64BE st.conn.cas := rfl

/-- C10: every single-path response is emitted with key length 0 (bytes
2-3), extras length 0 (byte 4) and datatype RAW_BYTES (byte 5); its CAS
field (bytes 16-23) is `htonll` of the connection's CAS; and the match
value is appended exactly when the opcode's traits carry a response
value. -/
theorem subdoc_response_format (t : CmdTraits) (st : ExecState) :
    readU16BE (subdoc_response t st).1 2 = 0 ∧
      readByte (subdoc_response t st).1 4 = 0 ∧
      readByte (subdoc_response t st).1 5 = PROTOCOL_BINARY_RAW_BYTES ∧
      (subdoc_response t st).1.drop 16 = u64BE st.conn.cas ∧
      (t.response_has_value = true →
        (subdoc_response t st).2 =
          (match st.conn.ctx with
           | some ctx => ctx.result.matchloc
           | none => [])) ∧
      (t.response_has_value = false → (subdoc_response t st).2 = []) := by
  set_option maxRecDepth 4000 in refine ⟨rfl, rfl, rfl, rfl, ?_, ?_⟩
  · intro h
    simp [subdoc_response, h]
  · intro h
    simp [subdoc_response, h]

/-- The context of a completed lookup: match location `[50]`. -/
def ctxRespW : SubdocCmdContext :=
  { in_doc := some [1, 2, 3]
    in_cas := 42
    result := { newdoc := [], matchloc := [50] }
    out_doc := none }

/-- A state after a successful lookup: match location `[50]`, response
CAS 43. -/
def stRespW : ExecState :=
  { conn := { item := some 7, ctx := some ctxRespW, cas := 43, checkedOut := 1 }
    allocs := []
    stores := []
    releases := [] }

/-- Witness for `subdoc_response_format`: a GET response from `stRespW`
carries CAS 43 big-endian in bytes 16-23 and the match bytes `[50]` as
its value. -/
theorem subdoc_response_format_witness :
    (subdoc_response traitsGet stRespW).1.drop 16 = u64BE 43 ∧
      (subdoc_response traitsGet stRespW).2 = [50] := by
  have h := subdoc_response_format traitsGet stRespW
  refine ⟨h.2.2.2.1, ?_⟩
  rw [h.2.2.2.2.1 rfl]
  rfl

/-- C8: a non-mutator command over a JSON document whose CAS check and
library operation succeed finishes in one attempt with no engine
allocate and no store (the stored document is untouched), the
connection CAS set to the CAS observed at fetch, and a response whose
CAS field is that fetched CAS in network byte order. -/
theorem subdoc_lookup_no_mutation (env : AttemptEnv) (t : CmdTraits) (cas it : Nat)
    (info : ItemInfo) (seg : List Nat)
    (hmut : t.is_mutator = false)
    (hget : env.get = .ok it) (hinfo : env.infoOf it = some info)
    (hsegs : info.segments = [seg]) (hdt : info.datatype = PROTOCOL_BINARY_DATATYPE_JSON)
    (hok : cas = 0 ∨ cas = info.cas) (hop : env.opResult = .success) :
    (subdoc_executor (fun _ => env) t cas).st.allocs = [] ∧
      (subdoc_executor (fun _ => env) t cas).st.stores = [] ∧
      (subdoc_executor (fun _ => env) t cas).st.conn.cas = info.cas ∧
      (subdoc_executor (fun _ => env) t cas).attempts = 1 ∧
      ∃ hdr value, (subdoc_executor (fun _ => env) t cas).outcome = .responded hdr value ∧
        hdr.drop 16 = u64BE info.cas := by
  have hmat := mat_json env it cas info seg hinfo hsegs hdt hok
  rw [subdoc_executor, subdoc_executor_loop]
  simp only [subdoc_attempt, subdoc_fetch, initExecState, hget, subdoc_operate,
    SubdocCmdContext.fresh, hmat, hop, subdoc_update, hmut]
  simp only [Option.getD_some, reduceIte]
  refine ⟨rfl, rfl, rfl, rfl, ?_⟩
  exact ⟨_, _, rfl, subdoc_response_hdr_cas t _⟩

/-- Witness for `subdoc_lookup_no_mutation`: a GET against the fixture
JSON environment with client CAS 0 makes no allocation or store and
answers with CAS 42. -/
theorem subdoc_lookup_no_mutation_witness :
    (subdoc_executor (fun _ => envJsonW) traitsGet 0).st.allocs = [] ∧
      (subdoc_executor (fun _ => envJsonW) traitsGet 0).st.stores = [] ∧
      (subdoc_executor (fun _ => envJsonW) traitsGet 0).st.conn.cas = 42 := by
  have h := subdoc_lookup_no_mutation envJsonW traitsGet 0 7 infoJsonW [1, 2, 3]
    rfl rfl rfl rfl rfl (Or.inl rfl) rfl
  exact ⟨h.1, h.2.1, h.2.2.1⟩

end Memcached
